import Mathlib

/-!
Verification of the LabGrid orchestration engine (labkit/labgrid).

This file gives a shallow embedding, in Lean 4, of the parts of the engine
that the specification claims talk about:

* `types.py`        — status enums and the data classes;
* `task_manager.py` — the priority queue, the task state machine and retry;
* `resource_manager.py` — host allocation and release;
* `experiment.py`   — the `Lab.run` lifecycle orchestration;
* `result_manager.py` — serialization of results to `metadata.json` and back;
* `framework.py`    — the façade (`start`, `stop`, `run_experiment`,
  `_execute_task`).

Modelling conventions:

* Python `datetime` values are abstracted to `Nat` timestamps (seconds);
  `datetime.now()` becomes an explicit clock argument.
* Python `float` fields that the claims touch (`progress`, `duration`) are
  modelled as `ℚ`.
* Python dicts are association lists in insertion order; assignment to an
  existing key replaces the binding in place, otherwise it appends.
* The Python code aliases one mutable `Task` object from several dicts
  (`tasks`, `running_tasks`, ...).  The embedding keeps the single master
  store `tasks` and represents the auxiliary dicts by their key sets, which
  is observationally the same as the aliased dicts.
* `queue.PriorityQueue` (stdlib, built on `heapq`) appears at two levels.
  The physical push is CPython `heapq.heappush` verbatim on the
  underlying list (`heappush` below): append the entry, then sift it up
  along its parent chain.  An entry is the tuple
  `(-task.priority, task.created_time.timestamp(), task)` put by the
  code; Python tuple comparison resolves on the first differing
  component and raises `TypeError` when the `(negPriority, ts)` prefixes
  tie and the `Task` objects differ (dataclass `Task` defines no
  ordering), leaving the partially sifted list behind.  `submit_task`
  and `fail_task` push through `heappush`.  For the dequeue-ordering
  claim the queue is additionally described by its contract on tie-free
  submission histories (`pqInsert`): a sequence kept sorted by the tuple
  order and drained least first, which agrees observably with the heap
  there.
* Logging calls, thread spawning and file-system side effects are dropped;
  callbacks (`Task.callback`) are not representable as data and are omitted
  (they are only invoked by `complete_task`, which no claim exercises).
-/

namespace LabGrid

/-- Scalar JSON values.  The engine's free-form mappings (`parameters`,
`metrics`) are `Dict[str, Any]` in Python; the claims never inspect
nested mapping values, so the model restricts the values to JSON
scalars. -/
inductive PrimVal where
  | null : PrimVal
  | bool : Bool → PrimVal
  | int : Int → PrimVal
  | num : ℚ → PrimVal
  | str : String → PrimVal
deriving DecidableEq, Repr

/-- The JSON values that `_save_result_index` writes into a serialized
result entry (`result_manager.py`): scalars, string arrays
(`result_files`, `logs`) and the scalar-valued `metrics` object. -/
inductive JVal where
  | null : JVal
  | bool : Bool → JVal
  | int : Int → JVal
  | num : ℚ → JVal
  | str : String → JVal
  | strArr : List String → JVal
  | dict : List (String × PrimVal) → JVal
deriving DecidableEq, Repr

/-- `ExperimentStatus` enum from `types.py` (`enum.auto()` members). -/
inductive ExperimentStatus where
  | pending | initializing | running | collecting | analyzing
  | saving | cleaning | completed | failed | cancelled
deriving DecidableEq, Repr

/-- The `.value` of an `ExperimentStatus` member: `auto()` numbers the
members 1..10 in declaration order. -/
def ExperimentStatus.value : ExperimentStatus → Int
  | .pending => 1
  | .initializing => 2
  | .running => 3
  | .collecting => 4
  | .analyzing => 5
  | .saving => 6
  | .cleaning => 7
  | .completed => 8
  | .failed => 9
  | .cancelled => 10

/-- `TaskStatus` enum from `types.py`. -/
inductive TaskStatus where
  | pending | running | completed | failed | cancelled
deriving DecidableEq, Repr

/-- `ServerStatus` enum from `types.py`. -/
inductive ServerStatus where
  | idle | busy | offline | error
deriving DecidableEq, Repr

/-- `ServerConfig` dataclass from `types.py` (credential strings kept
abstract). -/
structure ServerConfig where
  name : String
  host : String
  user : String
  port : Int := 22
  password : Option String := none
  key_filename : Option String := none
  max_concurrent_tasks : Int := 1
  description : Option String := none
deriving DecidableEq, Repr

/-- `ExperimentConfig` dataclass from `types.py`; the free-form
`parameters` mapping is JSON-like. -/
structure ExperimentConfig where
  experiment_type : String
  output_dir : String
  timeout : Int := 3600
  retry_count : Int := 0
  priority : Int := 0
  parameters : List (String × PrimVal) := []
  dependencies : List String := []
  tags : List String := []
  description : Option String := none
deriving DecidableEq, Repr

/-- `ExperimentResult` dataclass from `types.py`. -/
structure ExperimentResult where
  experiment_id : String
  status : ExperimentStatus
  output_dir : String
  start_time : Option Nat := none
  end_time : Option Nat := none
  duration : Option ℚ := none
  result_files : List String := []
  metrics : List (String × PrimVal) := []
  error_message : Option String := none
  logs : List String := []
deriving DecidableEq, Repr

/-- `FrameworkConfig` dataclass from `types.py`. -/
structure FrameworkConfig where
  max_worker_threads : Nat := 4
  max_workers_per_server : Nat := 2
  max_total_workers : Nat := 16
  experiment_timeout : Int := 86400 * 7
  task_queue_size : Nat := 1000
  log_level : String := "INFO"
  log_dir : String := "logs"
  result_retention_days : Int := 30
  enable_monitoring : Bool := true
deriving DecidableEq, Repr

/-- `Task` dataclass from `task_manager.py` (the `callback` field is
omitted: it is a function value and no claim exercises it). -/
structure Task where
  task_id : String
  experiment_type : String
  config : ExperimentConfig
  status : TaskStatus
  created_time : Nat
  start_time : Option Nat := none
  end_time : Option Nat := none
  assigned_server : Option String := none
  progress : ℚ := 0
  error_message : Option String := none
  result : Option ExperimentResult := none
  retry_count : Int := 0
  max_retries : Int := 0
  priority : Int := 0
  dependencies : List String := []
deriving DecidableEq, Repr

/-- One entry of the task queue: the tuple
`(-task.priority, task.created_time.timestamp(), task)` that
`submit_task` and `fail_task` put into `self.task_queue`. -/
structure QEntry where
  negPriority : Int
  ts : Nat
  task : Task
deriving DecidableEq, Repr

/-- The comparable prefix of an entry: its first two tuple components. -/
def QEntry.key (e : QEntry) : Int × Nat := (e.negPriority, e.ts)

/-- Strict Python tuple order on the comparable prefixes. -/
def keyLt (a b : Int × Nat) : Bool :=
  a.1 < b.1 || (a.1 = b.1 && a.2 < b.2)

/-- Ordered insertion: the contract-level model of `PriorityQueue.put`
used for the dequeue-ordering claim.  On entries whose `(negPriority, ts)`
keys are pairwise distinct it agrees with the heap observably: the queue
drains in ascending key order.  When the new key ties the key of a queued
entry of a different `Task` the contract model stops with
`Except.error ()` and is not used further; the physical push, ties
included, is modelled exactly by `heappush` below.  Entries that are
equal as whole tuples compare equal in Python and the new one is placed
after the old one. -/
def pqInsert : List QEntry → QEntry → Except Unit (List QEntry)
  | [], e => .ok [e]
  | x :: xs, e =>
    if keyLt e.key x.key then .ok (e :: x :: xs)
    else if keyLt x.key e.key then
      match pqInsert xs e with
      | .ok r => .ok (x :: r)
      | .error u => .error u
    else if e.task = x.task then .ok (x :: e :: xs)
    else .error ()

/-- Python `a < b` on two queue entries (tuple comparison): resolved by
the first strictly differing key component; with equal keys, two equal
`Task` dataclass values make the tuples equal (`<` is `False`), while
two different `Task` values are compared with `<` themselves and raise
`TypeError` (`Except.error ()`) because the dataclass defines no
ordering. -/
def entryLt (a b : QEntry) : Except Unit Bool :=
  if keyLt a.key b.key then .ok true
  else if keyLt b.key a.key then .ok false
  else if a.task = b.task then .ok false
  else .error ()

/-- CPython `heapq._siftdown(heap, 0, pos)`, fuel-indexed (the parent
chain from `pos` is shorter than `pos`, so `fuel ≥ pos` never exhausts):
walk from `pos` towards the root, moving each parent down while
`newitem < parent`, and finally write `newitem` at the stopping
position.  A raising comparison aborts the walk with the list as
mutated so far (`Except.error`): items already moved stay moved and
`newitem` has not yet been written back. -/
def siftdownAux (newitem : QEntry) :
    Nat → List QEntry → Nat → Except (List QEntry) (List QEntry)
  | _, heap, 0 => .ok (heap.set 0 newitem)
  | 0, heap, pos + 1 => .ok (heap.set (pos + 1) newitem)
  | fuel + 1, heap, pos + 1 =>
    match entryLt newitem (heap.getD (pos / 2) newitem) with
    | .error _ => .error heap
    | .ok true =>
      siftdownAux newitem fuel
        (heap.set (pos + 1) (heap.getD (pos / 2) newitem)) (pos / 2)
    | .ok false => .ok (heap.set (pos + 1) newitem)

/-- CPython `heapq.heappush`, the physical push performed by
`PriorityQueue.put`: append the item to the heap list, then sift it up
from the last position.  On success the result is the new heap list; on
a raising comparison (`TypeError` between tied entries on the parent
chain) the error carries the heap list as it stands at the raise, with
the appended item still in it (possibly displaced by a parent moved
down). -/
def heappush (heap : List QEntry) (item : QEntry) :
    Except (List QEntry) (List QEntry) :=
  siftdownAux item heap.length (heap ++ [item]) heap.length

/-- Association-list update with Python-dict semantics: replace the
binding if the key is present, otherwise append. -/
def dictInsert {α : Type} (l : List (String × α)) (k : String) (v : α) :
    List (String × α) :=
  if (l.find? (fun p => p.1 == k)).isSome then
    l.map (fun p => if p.1 == k then (k, v) else p)
  else l ++ [(k, v)]

/-- Key-set insertion for the id sets standing in for the aliased
`running_tasks` / `completed_tasks` / `failed_tasks` dicts. -/
def idInsert (l : List String) (k : String) : List String :=
  if l.contains k then l else l ++ [k]

/-- State of `TaskManager` (`task_manager.py`).  `tasks` is the master
store; `running_ids`, `completed_ids` and `failed_ids` are the key sets
of the aliased secondary dicts. -/
structure TMState where
  max_queue_size : Nat := 1000
  task_queue : List QEntry := []
  tasks : List (String × Task) := []
  running_ids : List String := []
  completed_ids : List String := []
  failed_ids : List String := []
  stats_created : Nat := 0
  stats_completed : Nat := 0
  stats_failed : Nat := 0
  stats_retried : Nat := 0
  task_id_counter : Nat := 0
deriving DecidableEq, Repr

/-- `TaskManager._generate_task_id`: bump the counter and build
`task_<ms-timestamp>_<counter>`. -/
def generateTaskId (tm : TMState) (nowMs : Nat) : String × TMState :=
  let c := tm.task_id_counter + 1
  ("task_" ++ toString nowMs ++ "_" ++ toString c,
   { tm with task_id_counter := c })

/-- `TaskManager.create_task`: always succeeds; the new task starts
`pending` and is not yet in the queue. -/
def createTask (tm : TMState) (experiment_type : String)
    (config : ExperimentConfig) (priority : Int) (max_retries : Int)
    (dependencies : List String) (nowMs created : Nat) : String × TMState :=
  let (task_id, tm1) := generateTaskId tm nowMs
  let task : Task :=
    { task_id := task_id
      experiment_type := experiment_type
      config := config
      status := .pending
      created_time := created
      max_retries := max_retries
      priority := priority
      dependencies := dependencies }
  (task_id,
   { tm1 with
     tasks := dictInsert tm1.tasks task_id task
     stats_created := tm1.stats_created + 1 })

/-- `TaskManager._check_dependencies`: every dependency must exist and be
`completed`. -/
def checkDependencies (tm : TMState) (task : Task) : Bool :=
  task.dependencies.all fun dep =>
    match List.lookup dep tm.tasks with
    | none => false
    | some d => d.status == .completed

/-- `TaskManager.submit_task`.  The `put` call sits in a `try/except`
that logs and returns `False` on any exception, so a `TypeError` from a
tied comparison on the sift path is swallowed; the underlying heap list
keeps the mutations `heappush` made before the raise (the appended
entry, possibly displaced by a moved parent). -/
def submitTask (tm : TMState) (task_id : String) : Bool × TMState :=
  match List.lookup task_id tm.tasks with
  | none => (false, tm)
  | some task =>
    if ¬ checkDependencies tm task then (false, tm)
    else if tm.max_queue_size ≤ tm.task_queue.length then (false, tm)
    else
      match heappush tm.task_queue ⟨-task.priority, task.created_time, task⟩ with
      | .ok q => (true, { tm with task_queue := q })
      | .error qbad => (false, { tm with task_queue := qbad })

/-- `TaskManager.get_next_task`: non-blocking pop of the least entry. -/
def getNextTask (tm : TMState) : Option Task × TMState :=
  match tm.task_queue with
  | [] => (none, tm)
  | e :: rest => (some e.task, { tm with task_queue := rest })

/-- `TaskManager.start_task`: requires status `pending`; records start
time and assigned server and moves the task into `running_tasks`. -/
def startTask (tm : TMState) (task_id server_name : String) (now : Nat) :
    Bool × TMState :=
  match List.lookup task_id tm.tasks with
  | none => (false, tm)
  | some task =>
    if task.status ≠ .pending then (false, tm)
    else
      let t := { task with
                 status := .running
                 start_time := some now
                 assigned_server := some server_name }
      (true,
       { tm with
         tasks := dictInsert tm.tasks task_id t
         running_ids := idInsert tm.running_ids task_id })

/-- `TaskManager.complete_task` (callback invocation omitted). -/
def completeTask (tm : TMState) (task_id : String)
    (result : ExperimentResult) (now : Nat) : Bool × TMState :=
  if ¬ tm.running_ids.contains task_id then (false, tm)
  else
    match List.lookup task_id tm.tasks with
    | none => (false, tm)
    | some task =>
      let t := { task with
                 status := .completed
                 end_time := some now
                 result := some result
                 progress := 1 }
      (true,
       { tm with
         tasks := dictInsert tm.tasks task_id t
         completed_ids := idInsert tm.completed_ids task_id
         running_ids := tm.running_ids.erase task_id
         stats_completed := tm.stats_completed + 1 })

/-- The retry reset performed by `fail_task`: bump the retry counter,
return to `pending`, clear start/end times, assigned server, progress
and error message (`created_time` is untouched). -/
def retryReset (task : Task) : Task :=
  { task with
    retry_count := task.retry_count + 1
    status := .pending
    start_time := none
    end_time := none
    assigned_server := none
    progress := 0
    error_message := none }

/-- The terminal update performed by `fail_task` when retries are
exhausted: status `failed`, end time and error message recorded. -/
def markFailed (task : Task) (error_message : String) (now : Nat) : Task :=
  { task with
    status := .failed
    end_time := some now
    error_message := some error_message }

/-- `TaskManager.fail_task`.  On the retry branch the code first mutates
the (aliased) task in place — `retryReset` — and only then calls `put`;
the `put` is *not* guarded by a `try`, so a raising tied comparison
propagates out of `fail_task` (`Except.error`) carrying the state at the
raise: the reset task already written into `tasks`, and the heap list as
`heappush` left it.  Note the code does not remove the task from
`running_tasks` on the retry branch. -/
def failTask (tm : TMState) (task_id error_message : String) (now : Nat) :
    Except TMState (Bool × TMState) :=
  if ¬ tm.running_ids.contains task_id then .ok (false, tm)
  else
    match List.lookup task_id tm.tasks with
    | none => .ok (false, tm)
    | some task =>
      if task.retry_count < task.max_retries then
        match heappush tm.task_queue
          ⟨-(retryReset task).priority, (retryReset task).created_time,
           retryReset task⟩ with
        | .error qbad =>
          .error
            { tm with
              tasks := dictInsert tm.tasks task_id (retryReset task)
              task_queue := qbad }
        | .ok q =>
          .ok (true,
               { tm with
                 tasks := dictInsert tm.tasks task_id (retryReset task)
                 task_queue := q
                 stats_retried := tm.stats_retried + 1 })
      else
        .ok (true,
             { tm with
               tasks := dictInsert tm.tasks task_id
                 (markFailed task error_message now)
               failed_ids := idInsert tm.failed_ids task_id
               running_ids := tm.running_ids.erase task_id
               stats_failed := tm.stats_failed + 1 })

/-- `TaskManager.shutdown`: drains the queue and clears every task dict
(statistics and the id counter are left as they are). -/
def tmShutdown (tm : TMState) : TMState :=
  { tm with
    task_queue := []
    tasks := []
    running_ids := []
    completed_ids := []
    failed_ids := [] }

/-- `ServerInfo` dataclass from `types.py`. -/
structure ServerInfo where
  name : String
  status : ServerStatus
  current_tasks : Int := 0
  max_tasks : Int := 1
  cpu_usage : Option ℚ := none
  memory_usage : Option ℚ := none
  disk_usage : Option ℚ := none
  last_heartbeat : Option Nat := none
deriving DecidableEq, Repr

/-- State of `ResourceManager` (`resource_manager.py`), together with the
task-count view that `LabX.update_server_task_count` maintains inside
`LabX.server_info` (the `labx_counts` map).  The per-host metrics history
is not modelled (no claim touches it). -/
structure RMState where
  server_resources : List (String × ServerInfo) := []
  allocation_strategy : String := "round_robin"
  monitoring_active : Bool := false
  labx_counts : List (String × Int) := []
deriving DecidableEq, Repr

/-- One pass of the loop body of `_get_available_servers` over a single
host: a host that passes the status and capacity checks but whose last
heartbeat is more than five minutes old is marked `offline` in place. -/
def markStale (now : Nat) (p : String × ServerInfo) : String × ServerInfo :=
  let s := p.2
  if s.status == .offline || s.status == .error then p
  else if s.max_tasks ≤ s.current_tasks then p
  else
    match s.last_heartbeat with
    | some hb => if 300 < now - hb then (p.1, { s with status := .offline }) else p
    | none => p

/-- The availability test of `_get_available_servers` for a single host:
status not in `[offline, error]`, spare capacity, and a heartbeat no
older than five minutes (hosts that never sent one pass the check). -/
def isAvailable (now : Nat) (p : String × ServerInfo) : Bool :=
  let s := p.2
  ¬ (s.status == .offline || s.status == .error) &&
  s.current_tasks < s.max_tasks &&
  (match s.last_heartbeat with
   | some hb => now - hb ≤ 300
   | none => true)

/-- `ResourceManager._get_available_servers`: returns the names of the
available hosts in table order, marking stale hosts `offline` as a side
effect.  Each loop iteration reads and updates only its own host, so the
loop is the map-and-filter below. -/
def getAvailableServers (rm : RMState) (now : Nat) :
    List String × RMState :=
  ((rm.server_resources.filter (isAvailable now)).map Prod.fst,
   { rm with server_resources := rm.server_resources.map (markStale now) })

/-- Python `min(names, key=current_tasks)` over an association list:
returns the first name whose host has the minimal task count. -/
def minByCount (servers : List (String × ServerInfo)) :
    List String → Option String
  | [] => none
  | n :: rest =>
    some (rest.foldl
      (fun best m =>
        let c := fun name =>
          match List.lookup name servers with
          | some s => s.current_tasks
          | none => 0
        if c m < c best then m else best)
      n)

/-- `_round_robin_allocation`: take the first available host. -/
def roundRobinAllocation (avail : List String) : Option String :=
  avail.head?

/-- `_least_loaded_allocation`: the host with the fewest current tasks,
ties broken by table order. -/
def leastLoadedAllocation (rm : RMState) (avail : List String) :
    Option String :=
  minByCount rm.server_resources avail

/-- `_priority_based_allocation`: least-loaded above priority 5,
round-robin otherwise. -/
def priorityBasedAllocation (rm : RMState) (avail : List String)
    (task_priority : Int) : Option String :=
  if 5 < task_priority then leastLoadedAllocation rm avail
  else roundRobinAllocation avail

/-- `ResourceManager.allocate_server`: build the available set, pick a
host by the current strategy, increment its task count (marking it `busy`
at capacity) and mirror the count into the LabX view. -/
def allocateServer (rm : RMState) (task_priority : Int) (now : Nat) :
    Option String × RMState :=
  let (avail, rm1) := getAvailableServers rm now
  if avail.isEmpty then (none, rm1)
  else
    let selected :=
      if rm1.allocation_strategy == "round_robin" then
        roundRobinAllocation avail
      else if rm1.allocation_strategy == "least_loaded" then
        leastLoadedAllocation rm1 avail
      else if rm1.allocation_strategy == "priority_based" then
        priorityBasedAllocation rm1 avail task_priority
      else roundRobinAllocation avail
    match selected with
    | none => (none, rm1)
    | some name =>
      match List.lookup name rm1.server_resources with
      | none => (none, rm1)  -- unreachable: the selected name is a table key
      | some s =>
        let s1 := { s with current_tasks := s.current_tasks + 1 }
        let s2 := if s1.max_tasks ≤ s1.current_tasks then
                    { s1 with status := .busy }
                  else s1
        (some name,
         { rm1 with
           server_resources := dictInsert rm1.server_resources name s2
           labx_counts :=
             dictInsert rm1.labx_counts name (max 0 s2.current_tasks) })

/-- `ResourceManager.release_server`: decrement with a floor at zero and
return the host to `idle` when drained or when it was `busy`. -/
def releaseServer (rm : RMState) (server_name : String) : RMState :=
  match List.lookup server_name rm.server_resources with
  | none => rm
  | some s =>
    let c := max 0 (s.current_tasks - 1)
    let s1 := { s with current_tasks := c }
    let s2 := if c == 0 then { s1 with status := .idle }
              else if s1.status == .busy then { s1 with status := .idle }
              else s1
    { rm with
      server_resources := dictInsert rm.server_resources server_name s2
      labx_counts := dictInsert rm.labx_counts server_name (max 0 c) }

/-- `ResourceManager._init_server_resources`: every configured host
starts `offline` with zero tasks and no heartbeat. -/
def initServerResources (configs : List (String × ServerConfig)) :
    List (String × ServerInfo) :=
  configs.map fun p =>
    (p.1,
     { name := p.1
       status := .offline
       current_tasks := 0
       max_tasks := p.2.max_concurrent_tasks
       last_heartbeat := none })

/-- `ResourceManager.shutdown`: stop monitoring and clear the host
table (and history). -/
def rmShutdown (rm : RMState) : RMState :=
  { rm with monitoring_active := false, server_resources := [] }

/-!  Lifecycle runner (`experiment.py`). -/

/-- The behaviour of one experiment instance: the outcome of each of the
six phases (in order: `initialize`, `execute`, `collect_data`,
`analyze_data`, `save_data`, `cleanup`; field names carry a `_phase`
suffix).  `Except.error msg` models the phase raising an exception with
message `msg`. -/
structure PhaseBehavior where
  init_phase : Except String Bool
  exec_phase : Except String Bool
  collect_phase : Except String Bool
  analyze_phase : Except String (List (String × PrimVal))
  save_phase : Except String Bool
  cleanup_phase : Except String Unit

/-- `Lab._create_result`: a fresh `pending` result whose experiment id is
derived from the millisecond clock. -/
def createResult (config : ExperimentConfig) (nowMs : Nat) :
    ExperimentResult :=
  { experiment_id := "exp_" ++ toString nowMs
    status := .pending
    output_dir := config.output_dir }

/-- The `except` branch of `Lab.run`: on an exception at any point the
result accumulated so far gets status `failed`, the exception message,
an end time and a duration (`start_time` has been set by then). -/
def labRunExcept (r : ExperimentResult) (msg : String) (t0 t1 : Nat) :
    ExperimentResult :=
  { r with
    status := .failed
    error_message := some msg
    end_time := some t1
    duration := some ((t1 : ℚ) - (t0 : ℚ)) }

/-- `Lab.run`, the six-phase orchestration: `r0` is `self.result` when
`run` is entered, `t0` the clock at entry and `t1` the clock at whichever
later `datetime.now()` call happens.  A phase returning `False` in the
first three phases ends the run with status `failed` and the phase's
failure label, without touching `end_time`; a `save_data` failure is only
logged; the success path and the exception branch set `end_time` and
`duration`. -/
def labRun (r0 : ExperimentResult) (b : PhaseBehavior) (t0 t1 : Nat) :
    ExperimentResult :=
  let r := { r0 with status := ExperimentStatus.initializing,
                     start_time := some t0 }
  match b.init_phase with
  | .error e => labRunExcept r e t0 t1
  | .ok false =>
    { r with status := .failed, error_message := some "初始化失败" }
  | .ok true =>
  let r := { r with status := ExperimentStatus.running }
  match b.exec_phase with
  | .error e => labRunExcept r e t0 t1
  | .ok false =>
    { r with status := .failed, error_message := some "执行失败" }
  | .ok true =>
  let r := { r with status := ExperimentStatus.collecting }
  match b.collect_phase with
  | .error e => labRunExcept r e t0 t1
  | .ok false =>
    { r with status := .failed, error_message := some "数据收集失败" }
  | .ok true =>
  let r := { r with status := ExperimentStatus.analyzing }
  match b.analyze_phase with
  | .error e => labRunExcept r e t0 t1
  | .ok m =>
  let r := { r with metrics := m, status := ExperimentStatus.saving }
  match b.save_phase with
  | .error e => labRunExcept r e t0 t1
  | .ok _ =>
  let r := { r with status := ExperimentStatus.cleaning }
  match b.cleanup_phase with
  | .error e => labRunExcept r e t0 t1
  | .ok _ =>
    { r with
      status := .completed
      end_time := some t1
      duration := some ((t1 : ℚ) - (t0 : ℚ)) }

/-!  Result manager (`result_manager.py`): serialization to
`metadata.json` and the reload path. -/

/-- Stand-in for `datetime.isoformat()` on an abstract timestamp. -/
def isoformat (t : Nat) : String := "iso:" ++ toString t

/-- The serialized dict that `_save_result_index` builds for one result:
`status` is stored as the enum's `.value` (an `auto()` integer) and the
timestamps as ISO strings. -/
def serializeResult (r : ExperimentResult) : List (String × JVal) :=
  [("experiment_id", .str r.experiment_id),
   ("status", .int r.status.value),
   ("start_time",
    match r.start_time with | some t => .str (isoformat t) | none => .null),
   ("end_time",
    match r.end_time with | some t => .str (isoformat t) | none => .null),
   ("duration",
    match r.duration with | some d => .num d | none => .null),
   ("output_dir", .str r.output_dir),
   ("result_files", .strArr r.result_files),
   ("metrics", .dict r.metrics),
   ("error_message",
    match r.error_message with | some m => .str m | none => .null),
   ("logs", .strArr r.logs)]

/-- The shape of `metadata.json` written by `_save_result_index`. -/
structure MetaJson where
  version : String
  last_updated : String
  results : List (List (String × JVal))
deriving DecidableEq, Repr

/-- `ResultManager._save_result_index` (file write abstracted to the
produced JSON document). -/
def saveResultIndex (index : List (String × ExperimentResult))
    (now : Nat) : MetaJson :=
  { version := "1.0"
    last_updated := isoformat now
    results := index.map (fun p => serializeResult p.2) }

/-- Run-time Python values as they can sit in a field of a loaded
`ExperimentResult` object: raw JSON values (the constructor performs no
conversion) or the typed values a fresh result carries (`status` enum
members, `datetime` objects).  Python equality across these shapes is
`False`: a plain-`Enum` member never equals its `.value` integer and a
`datetime` never equals its ISO string. -/
inductive PyVal where
  | null : PyVal
  | bool : Bool → PyVal
  | int : Int → PyVal
  | num : ℚ → PyVal
  | str : String → PyVal
  | strList : List String → PyVal
  | dict : List (String × PrimVal) → PyVal
  | status : ExperimentStatus → PyVal
  | time : Nat → PyVal
deriving DecidableEq, Repr

/-- What `json.load` hands to the constructor: raw values. -/
def jvalToPy : JVal → PyVal
  | .null => .null
  | .bool b => .bool b
  | .int i => .int i
  | .num q => .num q
  | .str s => .str s
  | .strArr l => .strList l
  | .dict l => .dict l

/-- A loaded `ExperimentResult` object, field by field, with
dynamically typed field values (`ExperimentResult(**result_data)` assigns
the deserialized JSON values to the fields unconverted). -/
structure ResultObj where
  experiment_id : PyVal
  status : PyVal
  output_dir : PyVal
  start_time : PyVal
  end_time : PyVal
  duration : PyVal
  result_files : PyVal
  metrics : PyVal
  error_message : PyVal
  logs : PyVal
deriving DecidableEq, Repr

/-- The view of a freshly built, well-typed `ExperimentResult` as a
Python object, for comparison with loaded objects. -/
def toPyObj (r : ExperimentResult) : ResultObj :=
  { experiment_id := .str r.experiment_id
    status := .status r.status
    output_dir := .str r.output_dir
    start_time := match r.start_time with | some t => .time t | none => .null
    end_time := match r.end_time with | some t => .time t | none => .null
    duration := match r.duration with | some d => .num d | none => .null
    result_files := .strList r.result_files
    metrics := .dict r.metrics
    error_message :=
      match r.error_message with | some m => .str m | none => .null
    logs := .strList r.logs }

/-- `ExperimentResult(**result_data)` in `_load_result_index`: the three
required constructor parameters must be present (else the call raises and
the entry is skipped); absent optional parameters take the dataclass
defaults; present values are assigned without conversion. -/
def loadEntry (d : List (String × JVal)) : Option ResultObj :=
  match List.lookup "experiment_id" d, List.lookup "status" d,
        List.lookup "output_dir" d with
  | some i, some st, some od =>
    some
      { experiment_id := jvalToPy i
        status := jvalToPy st
        output_dir := jvalToPy od
        start_time :=
          match List.lookup "start_time" d with
          | some v => jvalToPy v | none => .null
        end_time :=
          match List.lookup "end_time" d with
          | some v => jvalToPy v | none => .null
        duration :=
          match List.lookup "duration" d with
          | some v => jvalToPy v | none => .null
        result_files :=
          match List.lookup "result_files" d with
          | some v => jvalToPy v | none => .strList []
        metrics :=
          match List.lookup "metrics" d with
          | some v => jvalToPy v | none => .dict []
        error_message :=
          match List.lookup "error_message" d with
          | some v => jvalToPy v | none => .null
        logs :=
          match List.lookup "logs" d with
          | some v => jvalToPy v | none => .strList [] }
  | _, _, _ => none

/-- `ResultManager._load_result_index`: rebuild the index from the
metadata document, skipping entries whose construction fails; entries are
keyed by their `experiment_id` attribute (a string on every serializer
output). -/
def loadResultIndex (m : MetaJson) : List (String × ResultObj) :=
  m.results.foldl
    (fun idx d =>
      match loadEntry d with
      | none => idx
      | some o =>
        match o.experiment_id with
        | .str s => dictInsert idx s o
        | _ => idx)
    []

/-- State of `ResultManager`: the in-memory index plus the current
content of `metadata.json`. -/
structure ResState where
  result_index : List (String × ExperimentResult) := []
  metadata_file : Option MetaJson := none
deriving DecidableEq, Repr

/-- `ResultManager.store_result`: insert into the index keyed by
experiment id and rewrite the metadata file. -/
def storeResult (res : ResState) (r : ExperimentResult) (now : Nat) :
    Bool × ResState :=
  let idx := dictInsert res.result_index r.experiment_id r
  (true, { result_index := idx, metadata_file := some (saveResultIndex idx now) })

/-- `ResultManager.shutdown`: one final index save. -/
def resShutdown (res : ResState) (now : Nat) : ResState :=
  { res with metadata_file := some (saveResultIndex res.result_index now) }

/-!  Experiment registry (`registry.py`).  Class objects are abstracted
to class-name strings; the `issubclass` guard is outside the model. -/

/-- State of `ExperimentRegistry`. -/
structure RegState where
  experiments : List (String × String) := []
  descriptions : List (String × String) := []
  reg_tags : List (String × List String) := []
deriving DecidableEq, Repr

/-- `ExperimentRegistry.register` (for a class passing the subclass
check). -/
def regRegister (reg : RegState) (experiment_type class_name : String)
    (description : String) (tags : List String) : RegState :=
  { experiments := dictInsert reg.experiments experiment_type class_name
    descriptions := dictInsert reg.descriptions experiment_type description
    reg_tags := dictInsert reg.reg_tags experiment_type tags }

/-- `ExperimentRegistry.validate_experiment_type`. -/
def validateExperimentType (reg : RegState) (experiment_type : String) :
    Bool :=
  (List.lookup experiment_type reg.experiments).isSome

/-!  Framework façade (`framework.py`). -/

/-- `ConfigManager.validate_experiment_config`. -/
def validateExperimentConfig (config : ExperimentConfig) : Bool :=
  config.experiment_type ≠ "" &&
  config.output_dir ≠ "" &&
  0 < config.timeout &&
  0 ≤ config.retry_count &&
  0 ≤ config.priority

/-- State of the `LabGrid` façade.  Worker threads are modelled by their
count plus the active flag. -/
structure FWState where
  is_running : Bool := false
  fw_start_time : Option Nat := none
  worker_threads : Nat := 0
  worker_threads_active : Bool := false
  servers_config : List (String × ServerConfig) := []
  framework_config : FrameworkConfig := {}
  registry : RegState := {}
  task_manager : TMState := {}
  resource_manager : RMState := {}
  result_manager : ResState := {}

/-- `LabGrid.__init__` / `_init_components`: components built from the
loaded configurations; the resource manager starts with every configured
host `offline` at count 0 and monitoring on iff enabled. -/
def fwInit (servers : List (String × ServerConfig))
    (config : FrameworkConfig) : FWState :=
  { servers_config := servers
    framework_config := config
    task_manager := { max_queue_size := config.task_queue_size }
    resource_manager :=
      { server_resources := initServerResources servers
        monitoring_active := config.enable_monitoring
        labx_counts := servers.map (fun p => (p.1, 0)) } }

/-- `LabGrid.start`: a no-op when already running; otherwise start the
worker threads (count `min(max_worker_threads, servers ×
max_workers_per_server, max_total_workers)`) and flip the running flag.
Nothing else is (re)built. -/
def fwStart (fw : FWState) (now : Nat) : FWState :=
  if fw.is_running then fw
  else
    let fw1 :=
      if fw.worker_threads_active then fw
      else
        let wc := min fw.framework_config.max_worker_threads
          (min (fw.servers_config.length *
                fw.framework_config.max_workers_per_server)
               fw.framework_config.max_total_workers)
        { fw with worker_threads_active := true
                  worker_threads := fw.worker_threads + wc }
    { fw1 with is_running := true, fw_start_time := some now }

/-- `LabGrid.stop`: a no-op when not running; otherwise stop and clear
the worker threads and shut the components down (`TaskManager.shutdown`,
`ResourceManager.shutdown`, `ResultManager.shutdown`, `LabX.close`). -/
def fwStop (fw : FWState) (now : Nat) : FWState :=
  if ¬ fw.is_running then fw
  else
    let fw1 :=
      if ¬ fw.worker_threads_active then fw
      else { fw with worker_threads_active := false, worker_threads := 0 }
    { fw1 with
      task_manager := tmShutdown fw1.task_manager
      resource_manager := rmShutdown fw1.resource_manager
      result_manager := resShutdown fw1.result_manager now
      is_running := false }

/-- `LabGrid.register_experiment`: delegates to the registry. -/
def fwRegisterExperiment (fw : FWState)
    (experiment_type class_name description : String)
    (tags : List String) : FWState :=
  { fw with registry :=
      regRegister fw.registry experiment_type class_name description tags }

/-- `LabGrid.run_experiment`: validate the type and the config (raising
`ValueError` on failure), create the task with the config's priority and
retry count, submit it (raising `RuntimeError` if the submit returns
false) and return the task id.  Note: the method performs no check of
`is_running`. -/
def runExperiment (fw : FWState) (experiment_type : String)
    (config : ExperimentConfig) (nowMs created : Nat) :
    Except String (String × FWState) :=
  if ¬ validateExperimentType fw.registry experiment_type then
    .error ("实验类型 " ++ experiment_type ++ " 未注册")
  else if ¬ validateExperimentConfig config then
    .error "实验配置验证失败"
  else
    let (task_id, tm1) := createTask fw.task_manager experiment_type config
      config.priority config.retry_count [] nowMs created
    let (ok, tm2) := submitTask tm1 task_id
    if ¬ ok then .error "无法提交任务到队列"
    else .ok (task_id, { fw with task_manager := tm2 })

/-- The `except` branch of `_execute_task` applied to a `fail_task` call
that itself raised: the branch calls `fail_task` once more (on the state
the failing call left behind) with the exception text; a second
exception escapes to the worker loop with the mutations made before it
still applied. -/
def failTaskCaught (tm : TMState) (task_id msg : String) (now : Nat) :
    TMState :=
  match failTask tm task_id msg now with
  | .ok p => p.2
  | .error tmBad => tmBad

/-- `LabGrid._execute_task`, the worker body for one dequeued task.
`create` stands for the outcome of `registry.create_experiment`: `none`
models a failed construction, `some b` an instance with phase behaviour
`b`.  `nowMs` feeds the experiment id, `t0` the allocation/start clock
and `t1` every later `datetime.now()`.  When the initial `fail_task`
raises (tied re-queue comparison), control reaches the `except` branch,
which retries `fail_task` with the exception text; the model writes that
text as `"TypeError"`. -/
def executeTask (fw : FWState) (task : Task)
    (create : Option PhaseBehavior) (nowMs t0 t1 : Nat) : FWState :=
  let (serverOpt, rm1) := allocateServer fw.resource_manager
    task.config.priority t0
  match serverOpt with
  | none =>
    match failTask fw.task_manager task.task_id "无法分配服务器" t1 with
    | .ok (_, tm1) =>
      { fw with resource_manager := rm1, task_manager := tm1 }
    | .error tmBad =>
      { fw with resource_manager := rm1
                task_manager := failTaskCaught tmBad task.task_id "TypeError" t1 }
  | some server_name =>
    let (started, tm1) := startTask fw.task_manager task.task_id
      server_name t0
    if ¬ started then
      { fw with resource_manager := releaseServer rm1 server_name
                task_manager := tm1 }
    else
      match create with
      | none =>
        match failTask tm1 task.task_id "无法创建实验实例" t1 with
        | .ok (_, tm2) =>
          { fw with resource_manager := releaseServer rm1 server_name
                    task_manager := tm2 }
        | .error tmBad =>
          -- the except branch sees `experiment = None`, so the host is
          -- not released on this path
          { fw with resource_manager := rm1
                    task_manager :=
                      failTaskCaught tmBad task.task_id "TypeError" t1 }
      | some b =>
        let r0 := createResult task.config nowMs
        let result := labRun r0 b t0 t1
        let (_, res1) := storeResult fw.result_manager result t1
        let finish := fun (tm2 : TMState) =>
          { fw with resource_manager := releaseServer rm1 server_name
                    task_manager := tm2
                    result_manager := res1 }
        if result.status == .completed then
          finish (completeTask tm1 task.task_id result t1).2
        else
          let msg := match result.error_message with
            | some m => if m = "" then "实验执行失败" else m
            | none => "实验执行失败"
          match failTask tm1 task.task_id msg t1 with
          | .ok (_, tm2) => finish tm2
          | .error tmBad =>
            -- the `finally` has already released the host; the except
            -- branch retries fail_task and finds `assigned_server`
            -- cleared, so no second release happens
            finish (failTaskCaught tmBad task.task_id "TypeError" t1)

/-!  Derived notions used by the statements below. -/

/-- Well-formedness of a queue entry: its comparable components are the
ones `submit_task` / `fail_task` derive from the carried task. -/
def QEntry.wf (e : QEntry) : Prop :=
  e.negPriority = -e.task.priority ∧ e.ts = e.task.created_time

/-- The queue is sorted by the Python tuple order on the comparable
components (equal keys may only repeat for one and the same task). -/
def QSorted (q : List QEntry) : Prop :=
  q.Pairwise (fun x y => keyLt x.key y.key = true ∨ x.key = y.key)

/-- Fold a sequence of queue insertions from the empty queue, the way an
arbitrary arrival order of submissions builds the queue. -/
def buildQueue (es : List QEntry) : Except Unit (List QEntry) :=
  List.foldlM (fun q e => pqInsert q e) [] es

/-- Repeated `get_next_task` until the queue is empty (fuel-indexed so
the definition is structural; the fuel is the queue length at the first
call). -/
def drainTasks : Nat → TMState → List Task
  | 0, _ => []
  | fuel + 1, tm =>
    match getNextTask tm with
    | (none, _) => []
    | (some t, tm1) => t :: drainTasks fuel tm1

/-- The dequeue-order property claimed for the scheduler: a later task
never has higher priority, and within one priority class creation
timestamps are nondecreasing. -/
def DequeueOrdered (l : List Task) : Prop :=
  l.Pairwise fun t1 t2 =>
    t2.priority ≤ t1.priority ∧
    (t1.priority = t2.priority → t1.created_time ≤ t2.created_time)

/-- An interleaving step on the resource manager: one `allocate_server`
or one `release_server` call. -/
inductive RMOp where
  | alloc : Int → Nat → RMOp
  | release : String → RMOp

/-- Apply one step. -/
def applyRMOp (rm : RMState) : RMOp → RMState
  | .alloc p now => (allocateServer rm p now).2
  | .release name => releaseServer rm name

/-- Apply an arbitrary interleaving of allocate and release calls. -/
def applyRMOps (rm : RMState) (ops : List RMOp) : RMState :=
  ops.foldl applyRMOp rm

/-- The per-host count bounds of the claimed invariant. -/
def RMBounds (rm : RMState) : Prop :=
  ∀ p ∈ rm.server_resources,
    0 ≤ p.2.current_tasks ∧ p.2.current_tasks ≤ p.2.max_tasks

/-- Reachable-state invariant of the host table: distinct host names
(it models a Python dict) and the count bounds. -/
def RMInv (rm : RMState) : Prop :=
  (rm.server_resources.map Prod.fst).Nodup ∧ RMBounds rm

/-- The object that `_load_result_index` actually reconstructs from a
serialized result: the raw JSON values assigned field by field — the
status turned into its integer enum value, the timestamps into ISO
strings. -/
def loadedView (r : ExperimentResult) : ResultObj :=
  { experiment_id := .str r.experiment_id
    status := .int r.status.value
    output_dir := .str r.output_dir
    start_time :=
      match r.start_time with
      | some t => .str (isoformat t) | none => .null
    end_time :=
      match r.end_time with
      | some t => .str (isoformat t) | none => .null
    duration :=
      match r.duration with | some d => .num d | none => .null
    result_files := .strList r.result_files
    metrics := .dict r.metrics
    error_message :=
      match r.error_message with | some m => .str m | none => .null
    logs := .strList r.logs }

/-!  Concrete fixtures for the counterexamples and witnesses. -/

/-- A valid experiment configuration. -/
def cfgNoop : ExperimentConfig :=
  { experiment_type := "noop", output_dir := "out" }

/-- A configured host. -/
def srvS1 : ServerConfig := { name := "s1", host := "10.0.0.1", user := "u" }

/-- A freshly initialized framework with one host and the type `noop`
registered, `start` not yet called. -/
def fwReg : FWState :=
  fwRegisterExperiment (fwInit [("s1", srvS1)] {}) "noop" "NoopLab" "" []

/-- A task as it comes off the queue before any host exists for it:
still `pending`, not in the running map. -/
def tC1 : Task :=
  { task_id := "t1"
    experiment_type := "noop"
    config := cfgNoop
    status := .pending
    created_time := 50 }

/-- Framework state for the host-exhaustion scenario: the single host is
`offline` (as initialized), the task `t1` has been dequeued (so the
queue is empty again) and is still `pending`. -/
def fwC1 : FWState :=
  { fwReg with
    is_running := true
    task_manager :=
      { fwReg.task_manager with tasks := [("t1", tC1)] } }

/-- Phase behaviour: everything succeeds; analysis yields one metric. -/
def bAllOk : PhaseBehavior :=
  { init_phase := .ok true
    exec_phase := .ok true
    collect_phase := .ok true
    analyze_phase := .ok [("ok", .int 1)]
    save_phase := .ok true
    cleanup_phase := .ok () }

/-- Phase behaviour whose `initialize` returns `False`. -/
def bInitFalse : PhaseBehavior := { bAllOk with init_phase := .ok false }

/-- Phase behaviour whose `execute` returns `False`. -/
def bExecFalse : PhaseBehavior := { bAllOk with exec_phase := .ok false }

/-- Phase behaviour whose `collect_data` returns `False`. -/
def bCollectFalse : PhaseBehavior :=
  { bAllOk with collect_phase := .ok false }

/-- Phase behaviour whose `save_data` returns `False`. -/
def bSaveFalse : PhaseBehavior := { bAllOk with save_phase := .ok false }

/-- A running task with one retry left (priority 1, created at 50). -/
def tRunA : Task :=
  { task_id := "a"
    experiment_type := "noop"
    config := cfgNoop
    status := .running
    created_time := 50
    start_time := some 60
    assigned_server := some "s1"
    retry_count := 0
    max_retries := 1
    priority := 1 }

/-- A pending task sharing priority and creation timestamp with
`tRunA`. -/
def tPendB : Task :=
  { task_id := "b"
    experiment_type := "noop"
    config := cfgNoop
    status := .pending
    created_time := 50
    priority := 1 }

/-- Task-manager state in which `a` is running and the queue holds
exactly one entry, the tied one for `b` — so a re-queue of `a` is
sifted against that entry and nothing else. -/
def tmTied : TMState :=
  { tasks := [("a", tRunA), ("b", tPendB)]
    running_ids := ["a"]
    task_queue := [⟨-1, 50, tPendB⟩] }

/-- A running task with no retries left. -/
def tRunC : Task :=
  { task_id := "c"
    experiment_type := "noop"
    config := cfgNoop
    status := .running
    created_time := 70
    start_time := some 80
    assigned_server := some "s1"
    retry_count := 0
    max_retries := 0 }

/-- Task-manager state in which `c` is running with an empty queue. -/
def tmRunC : TMState :=
  { tasks := [("c", tRunC)], running_ids := ["c"] }

/-- The pending form of `tRunA` (as before submission). -/
def tAPend : Task :=
  { tRunA with
    status := .pending
    start_time := none
    assigned_server := none }

/-- Task-manager state holding the two timestamp-tied pending tasks,
nothing queued yet. -/
def tmTie0 : TMState :=
  { tasks := [("a", tAPend), ("b", tPendB)] }

/-- `tmTie0` after submitting `a`: its entry is in the queue. -/
def tmSubA : TMState := (submitTask tmTie0 "a").2

/-- Task-manager state in which `a` is running, with an empty queue. -/
def tmRetry : TMState :=
  { tasks := [("a", tRunA)], running_ids := ["a"] }

/-- Seed tasks for the priority-ordering scenario (spec §8, scenario 4):
A and C at priority 0, B at priority 5, submitted in the order
A, B, C. -/
def taskSeedA : Task := { tC1 with task_id := "A", created_time := 1 }

/-- Seed task B (priority 5). -/
def taskSeedB : Task :=
  { tC1 with task_id := "B", created_time := 2, priority := 5 }

/-- Seed task C. -/
def taskSeedC : Task := { tC1 with task_id := "C", created_time := 3 }

/-- The submission order of the seed scenario. -/
def esSeed : List QEntry :=
  [⟨0, 1, taskSeedA⟩, ⟨-5, 2, taskSeedB⟩, ⟨0, 3, taskSeedC⟩]

/-- The queue the seed submissions build: B first, then A, then C. -/
def qSeed : List QEntry :=
  [⟨-5, 2, taskSeedB⟩, ⟨0, 1, taskSeedA⟩, ⟨0, 3, taskSeedC⟩]

/-- A resource-manager state with one idle two-slot host. -/
def rmW : RMState :=
  { server_resources :=
      [("s1", { name := "s1", status := .idle,
                current_tasks := 0, max_tasks := 2 })] }

/-- A concrete interleaving of allocations and releases. -/
def opsW : List RMOp :=
  [.alloc 0 10, .alloc 3 11, .release "s1", .alloc 7 12]

/-- A completed result with every field populated. -/
def rDone : ExperimentResult :=
  { experiment_id := "exp_5"
    status := .completed
    output_dir := "out"
    start_time := some 10
    end_time := some 11
    duration := some 1
    result_files := ["a.log"]
    metrics := [("ok", .int 1)]
    error_message := none
    logs := ["done"] }

/-- The framework of `fwReg` after one `start` at time 100. -/
def fwA : FWState := fwStart fwReg 100

/-- The same framework after `start`, `stop`, `start`. -/
def fwB : FWState := fwStart (fwStop fwA 200) 300

instance (rm : RMState) : Decidable (RMBounds rm) :=
  inferInstanceAs (Decidable (∀ p ∈ rm.server_resources,
    0 ≤ p.2.current_tasks ∧ p.2.current_tasks ≤ p.2.max_tasks))

instance (rm : RMState) : Decidable (RMInv rm) :=
  inferInstanceAs (Decidable (_ ∧ RMBounds rm))

instance (e : QEntry) : Decidable e.wf :=
  inferInstanceAs (Decidable (_ ∧ _))

instance (q : List QEntry) : Decidable (QSorted q) :=
  inferInstanceAs (Decidable (q.Pairwise fun (x y : QEntry) =>
    keyLt x.key y.key = true ∨ x.key = y.key))

instance (l : List Task) : Decidable (DequeueOrdered l) :=
  inferInstanceAs (Decidable (l.Pairwise fun (t1 t2 : Task) =>
    t2.priority ≤ t1.priority ∧
    (t1.priority = t2.priority → t1.created_time ≤ t2.created_time)))

/-!  ## Theorems -/

/-!  Order lemmas for the queue keys. -/

theorem keyLt_iff (a b : Int × Nat) :
    keyLt a b = true ↔ a.1 < b.1 ∨ (a.1 = b.1 ∧ a.2 < b.2) := by
  simp [keyLt]

theorem keyLt_trichotomy (a b : Int × Nat) :
    keyLt a b = true ∨ keyLt b a = true ∨ a = b := by
  simp only [keyLt_iff, Prod.ext_iff]
  omega

theorem keyLt_asymm (a b : Int × Nat) (h1 : keyLt a b = true)
    (h2 : keyLt b a = true) : False := by
  simp only [keyLt_iff] at h1 h2
  omega

theorem keyLt_irrefl (a : Int × Nat) (h : keyLt a a = true) : False := by
  simp only [keyLt_iff] at h
  omega

theorem keyLt_trans (a b c : Int × Nat) (h1 : keyLt a b = true)
    (h2 : keyLt b c = true) : keyLt a c = true := by
  simp only [keyLt_iff] at h1 h2 ⊢
  omega

/-!  Behaviour of `pqInsert`. -/

theorem pqInsert_mem_iff (q : List QEntry) (e : QEntry) :
    ∀ q2, pqInsert q e = .ok q2 → ∀ y, y ∈ q2 ↔ y ∈ q ∨ y = e := by
  induction q with
  | nil =>
    intro q2 h y
    simp only [pqInsert, Except.ok.injEq] at h
    subst h
    simp
  | cons x xs ih =>
    intro q2 h y
    cases h1 : keyLt e.key x.key with
    | true =>
      simp only [pqInsert, h1, if_true, Except.ok.injEq] at h
      subst h
      simp only [List.mem_cons]
      tauto
    | false =>
      cases h2 : keyLt x.key e.key with
      | true =>
        simp only [pqInsert, h1, h2, if_true, if_false,
          Bool.false_eq_true] at h
        cases hr : pqInsert xs e with
        | error u => rw [hr] at h; cases h
        | ok r =>
          rw [hr] at h
          simp only [Except.ok.injEq] at h
          subst h
          have := ih r hr y
          simp only [List.mem_cons, this]
          tauto
      | false =>
        by_cases h3 : e.task = x.task
        · simp only [pqInsert, h1, h2, h3, if_true, if_false,
            Bool.false_eq_true, if_pos, Except.ok.injEq] at h
          subst h
          simp only [List.mem_cons]
          tauto
        · simp only [pqInsert, h1, h2, h3, Bool.false_eq_true, if_false,
            if_neg, not_false_eq_true] at h
          cases h

/-!  Behaviour of the physical push `heappush`. -/

theorem keyLt_self_false (a : Int × Nat) : keyLt a a = false := by
  cases h : keyLt a a with
  | false => rfl
  | true => exact (keyLt_irrefl a h).elim

theorem mem_set_self {α : Type} :
    ∀ (l : List α) (i : Nat) (a : α), i < l.length → a ∈ l.set i a := by
  intro l
  induction l with
  | nil => intro i a h; simp at h
  | cons x xs ih =>
    intro i a h
    cases i with
    | zero => simp [List.set]
    | succ j =>
      simp only [List.set]
      exact List.mem_cons_of_mem x (ih j a (by simpa using h))

theorem siftdownAux_mem (e : QEntry) :
    ∀ (fuel : Nat) (heap : List QEntry) (pos : Nat), pos < heap.length →
      ∀ q2, siftdownAux e fuel heap pos = .ok q2 → e ∈ q2 := by
  intro fuel
  induction fuel with
  | zero =>
    intro heap pos hpos q2 h
    cases pos with
    | zero =>
      simp only [siftdownAux, Except.ok.injEq] at h
      subst h
      exact mem_set_self _ _ _ hpos
    | succ p =>
      simp only [siftdownAux, Except.ok.injEq] at h
      subst h
      exact mem_set_self _ _ _ hpos
  | succ fuel ih =>
    intro heap pos hpos q2 h
    cases pos with
    | zero =>
      simp only [siftdownAux, Except.ok.injEq] at h
      subst h
      exact mem_set_self _ _ _ hpos
    | succ p =>
      simp only [siftdownAux] at h
      cases hc : entryLt e (heap.getD (p / 2) e) with
      | error u => rw [hc] at h; cases h
      | ok b =>
        rw [hc] at h
        cases b with
        | true =>
          exact ih _ (p / 2)
            (by rw [List.length_set]; omega) q2 h
        | false =>
          simp only [Except.ok.injEq] at h
          subst h
          exact mem_set_self _ _ _ hpos

theorem heappush_mem (q : List QEntry) (e : QEntry) (q2 : List QEntry)
    (h : heappush q e = .ok q2) : e ∈ q2 :=
  siftdownAux_mem e q.length (q ++ [e]) q.length (by simp) q2 h

theorem siftdownAux_ok_of_no_tie (e : QEntry) (q : List QEntry)
    (hkeys : ∀ x ∈ q, x.key ≠ e.key) :
    ∀ (fuel : Nat) (heap : List QEntry) (pos : Nat),
      (∀ x ∈ heap, x ∈ q ∨ x = e) → pos < heap.length →
      ∃ q2, siftdownAux e fuel heap pos = .ok q2 := by
  intro fuel
  induction fuel with
  | zero =>
    intro heap pos _ _
    cases pos with
    | zero => exact ⟨_, rfl⟩
    | succ p => exact ⟨_, rfl⟩
  | succ fuel ih =>
    intro heap pos hsub hpos
    cases pos with
    | zero => exact ⟨_, rfl⟩
    | succ p =>
      have hpar : p / 2 < heap.length := by omega
      have hparent_mem : heap.getD (p / 2) e ∈ heap := by
        rw [List.getD_eq_getElem heap e hpar]
        exact List.getElem_mem hpar
      have hcmp : ∃ b, entryLt e (heap.getD (p / 2) e) = .ok b := by
        rcases hsub _ hparent_mem with hq | he
        · have hk := hkeys _ hq
          rcases keyLt_trichotomy e.key (heap.getD (p / 2) e).key
            with h1 | h1 | h1
          · refine ⟨true, ?_⟩
            unfold entryLt
            rw [if_pos h1]
          · refine ⟨false, ?_⟩
            unfold entryLt
            rw [if_neg ?_, if_pos h1]
            intro habs
            exact keyLt_asymm _ _ habs h1
          · exact absurd h1.symm hk
        · rw [he]
          refine ⟨false, ?_⟩
          unfold entryLt
          rw [if_neg ?_, if_neg ?_, if_pos rfl]
          · intro habs
            rw [keyLt_self_false] at habs
            cases habs
          · intro habs
            rw [keyLt_self_false] at habs
            cases habs
      obtain ⟨b, hb⟩ := hcmp
      cases b with
      | false =>
        refine ⟨heap.set (p + 1) e, ?_⟩
        simp only [siftdownAux, hb]
      | true =>
        obtain ⟨q2, hq2⟩ :=
          ih (heap.set (p + 1) (heap.getD (p / 2) e)) (p / 2)
            (fun x hx => by
              rcases List.mem_or_eq_of_mem_set hx with h1 | h1
              · exact hsub x h1
              · exact hsub _ (h1 ▸ hparent_mem))
            (by rw [List.length_set]; omega)
        refine ⟨q2, ?_⟩
        simp only [siftdownAux, hb, hq2]

theorem heappush_ok_of_no_tie (q : List QEntry) (e : QEntry)
    (h : ∀ x ∈ q, x.key ≠ e.key) :
    ∃ q2, heappush q e = .ok q2 ∧ e ∈ q2 := by
  obtain ⟨q2, hq2⟩ := siftdownAux_ok_of_no_tie e q h q.length (q ++ [e])
    q.length
    (fun x hx => by
      rcases List.mem_append.mp hx with h1 | h1
      · exact Or.inl h1
      · simp only [List.mem_singleton] at h1
        exact Or.inr h1)
    (by simp)
  exact ⟨q2, hq2, heappush_mem q e q2 hq2⟩

/-- With exactly one queued entry, the appended item's only parent is
that entry, so a key tie between the two (with different tasks) raises
on the very first comparison — before any swap — leaving the item
dangling at the end of the heap list. -/
theorem heappush_singleton_tie (e2 e : QEntry) (hkey : e2.key = e.key)
    (hne : ¬ e2.task = e.task) : heappush [e2] e = .error [e2, e] := by
  have hne2 : ¬ e.task = e2.task := fun h => hne h.symm
  show siftdownAux e 1 [e2, e] 1 = .error [e2, e]
  have hget : ([e2, e].getD (0 / 2) e) = e2 := rfl
  have hcmp : entryLt e e2 = .error () := by
    unfold entryLt
    rw [if_neg ?_, if_neg ?_, if_neg hne2]
    · rw [hkey, keyLt_self_false]
      intro habs
      cases habs
    · rw [hkey, keyLt_self_false]
      intro habs
      cases habs
  show (match entryLt e ([e2, e].getD (0 / 2) e) with
    | .error _ => Except.error [e2, e]
    | .ok true =>
      siftdownAux e 0 ([e2, e].set 1 ([e2, e].getD (0 / 2) e)) (0 / 2)
    | .ok false => .ok ([e2, e].set 1 e)) = .error [e2, e]
  rw [hget, hcmp]

/-- A tie that sits off the appended item's parent chain does not hurt:
with a root whose key is strictly below the new item's, the first parent
comparison resolves at the root and the push succeeds, whatever `e2` in
the second slot is — in particular an entry tied with `e`.  (This is the
configuration in which the contract model `pqInsert` would stop but the
real heap accepts the entry.) -/
theorem heappush_tie_off_path (eX e2 e : QEntry)
    (h1 : keyLt eX.key e.key = true) :
    heappush [eX, e2] e = .ok [eX, e2, e] := by
  have h2 : keyLt e.key eX.key = false := by
    cases hc : keyLt e.key eX.key with
    | false => rfl
    | true => exact (keyLt_asymm _ _ hc h1).elim
  show siftdownAux e 2 [eX, e2, e] 2 = .ok [eX, e2, e]
  have hget : ([eX, e2, e].getD (1 / 2) e) = eX := rfl
  have hcmp : entryLt e eX = .ok false := by
    unfold entryLt
    rw [if_neg ?_, if_pos h1]
    rw [h2]
    intro habs
    cases habs
  show (match entryLt e ([eX, e2, e].getD (1 / 2) e) with
    | .error _ => Except.error [eX, e2, e]
    | .ok true =>
      siftdownAux e 1 ([eX, e2, e].set 2 ([eX, e2, e].getD (1 / 2) e)) (1 / 2)
    | .ok false => .ok ([eX, e2, e].set 2 e)) = .ok [eX, e2, e]
  rw [hget, hcmp]
  rfl

theorem pqInsert_sorted (q : List QEntry) (e : QEntry) :
    ∀ q2, QSorted q → pqInsert q e = .ok q2 → QSorted q2 := by
  induction q with
  | nil =>
    intro q2 _ h
    simp only [pqInsert, Except.ok.injEq] at h
    subst h
    exact List.pairwise_singleton _ _
  | cons x xs ih =>
    intro q2 hs h
    have hpc := List.pairwise_cons.mp hs
    cases h1 : keyLt e.key x.key with
    | true =>
      simp only [pqInsert, h1, if_true, Except.ok.injEq] at h
      subst h
      refine List.pairwise_cons.mpr ⟨?_, hs⟩
      intro y hy
      rcases List.mem_cons.mp hy with rfl | hy2
      · exact Or.inl h1
      · rcases hpc.1 y hy2 with hxy | hxy
        · exact Or.inl (keyLt_trans _ _ _ h1 hxy)
        · exact Or.inl (hxy ▸ h1)
    | false =>
      cases h2 : keyLt x.key e.key with
      | true =>
        simp only [pqInsert, h1, h2, if_true, if_false,
          Bool.false_eq_true] at h
        cases hr : pqInsert xs e with
        | error u => rw [hr] at h; cases h
        | ok r =>
          rw [hr] at h
          simp only [Except.ok.injEq] at h
          subst h
          refine List.pairwise_cons.mpr ⟨?_, ih r hpc.2 hr⟩
          intro y hy
          rcases (pqInsert_mem_iff xs e r hr y).mp hy with hy2 | rfl
          · exact hpc.1 y hy2
          · exact Or.inl h2
      | false =>
        have hxe : x.key = e.key := by
          rcases keyLt_trichotomy e.key x.key with hlt | hgt | heq
          · rw [h1] at hlt; cases hlt
          · rw [h2] at hgt; cases hgt
          · exact heq.symm
        by_cases h3 : e.task = x.task
        · simp only [pqInsert, h1, h2, h3, Bool.false_eq_true, if_false,
            if_pos, Except.ok.injEq] at h
          subst h
          refine List.pairwise_cons.mpr ⟨?_, ?_⟩
          · intro y hy
            rcases List.mem_cons.mp hy with rfl | hy2
            · exact Or.inr hxe
            · exact hpc.1 y hy2
          · refine List.pairwise_cons.mpr ⟨?_, hpc.2⟩
            intro y hy
            rcases hpc.1 y hy with hxy | hxy
            · exact Or.inl (hxe ▸ hxy)
            · exact Or.inr (hxe ▸ hxy)
        · simp only [pqInsert, h1, h2, h3, Bool.false_eq_true, if_false,
            if_neg, not_false_eq_true] at h
          cases h

/-- Claim C1: when a worker dequeues a task and `allocate_server` comes
back empty, the code calls `fail_task` on a task that is still `pending`
(it was never started), so `fail_task` returns `False` and changes
nothing: the dequeued task is neither re-queued nor failed nor running —
it sits `pending` outside the queue forever, i.e. it is lost, contrary
to the claim that it is re-queued intact or remains in the queue.  The
state below evaluates the worker body at such an input: one configured
host (still `offline`), task `t1` just dequeued. -/
theorem execute_task_allocation_failure_loses_task :
    (allocateServer fwC1.resource_manager tC1.config.priority 10).1 = none ∧
    List.lookup "t1" fwC1.task_manager.tasks = some tC1 ∧
    tC1.status = .pending ∧
    fwC1.task_manager.task_queue = [] ∧
    (executeTask fwC1 tC1 none 5 10 11).task_manager = fwC1.task_manager :=
  ⟨rfl, rfl, rfl, rfl, rfl⟩

/-- Claim C2 (counterexample): an experiment whose `initialize` returns
`False` does get status `failed` and the phase label as error message,
but `run` records no end time on that path. -/
theorem lab_run_phase_false_end_time_cex :
    (labRun (createResult cfgNoop 5) bInitFalse 10 11).status = .failed ∧
    (labRun (createResult cfgNoop 5) bInitFalse 10 11).error_message =
      some "初始化失败" ∧
    (labRun (createResult cfgNoop 5) bInitFalse 10 11).end_time = none :=
  ⟨rfl, rfl, rfl⟩

/-- Claim C2 (amended): a `False` from `initialize`, `execute` or
`collect_data` terminates `run` immediately with status `failed` and the
phase's failure label as error message, leaving `end_time` (and
`duration`) untouched — the end time is recorded only on the success and
exception paths. -/
theorem lab_run_phase_false_terminates (r0 : ExperimentResult)
    (b : PhaseBehavior) (t0 t1 : Nat) :
    (b.init_phase = .ok false →
      labRun r0 b t0 t1 =
        { r0 with status := .failed, start_time := some t0,
                  error_message := some "初始化失败" }) ∧
    (b.init_phase = .ok true → b.exec_phase = .ok false →
      labRun r0 b t0 t1 =
        { r0 with status := .failed, start_time := some t0,
                  error_message := some "执行失败" }) ∧
    (b.init_phase = .ok true → b.exec_phase = .ok true →
      b.collect_phase = .ok false →
      labRun r0 b t0 t1 =
        { r0 with status := .failed, start_time := some t0,
                  error_message := some "数据收集失败" }) := by
  refine ⟨fun h1 => ?_, fun h1 h2 => ?_, fun h1 h2 h3 => ?_⟩
  · unfold labRun; rw [h1]
  · unfold labRun; rw [h1, h2]
  · unfold labRun; rw [h1, h2, h3]

/-- Witness for `lab_run_phase_false_terminates`, exercising all three
failing phases on concrete behaviours. -/
theorem lab_run_phase_false_terminates_witness :
    labRun (createResult cfgNoop 5) bInitFalse 10 11 =
      { createResult cfgNoop 5 with
        status := .failed, start_time := some 10,
        error_message := some "初始化失败" } ∧
    labRun (createResult cfgNoop 5) bExecFalse 10 11 =
      { createResult cfgNoop 5 with
        status := .failed, start_time := some 10,
        error_message := some "执行失败" } ∧
    labRun (createResult cfgNoop 5) bCollectFalse 10 11 =
      { createResult cfgNoop 5 with
        status := .failed, start_time := some 10,
        error_message := some "数据收集失败" } :=
  ⟨(lab_run_phase_false_terminates (createResult cfgNoop 5)
      bInitFalse 10 11).1 rfl,
   (lab_run_phase_false_terminates (createResult cfgNoop 5)
      bExecFalse 10 11).2.1 rfl rfl,
   (lab_run_phase_false_terminates (createResult cfgNoop 5)
      bCollectFalse 10 11).2.2 rfl rfl rfl⟩

/-- Claim C9: when the first four phases succeed and only `save_data`
returns `False`, `run` still walks through cleanup and produces a
`completed` result carrying the metrics from `analyze_data`, with end
time and duration recorded. -/
theorem lab_run_save_failure_completes (r0 : ExperimentResult)
    (b : PhaseBehavior) (t0 t1 : Nat) (m : List (String × PrimVal))
    (h1 : b.init_phase = .ok true) (h2 : b.exec_phase = .ok true)
    (h3 : b.collect_phase = .ok true) (h4 : b.analyze_phase = .ok m)
    (h5 : b.save_phase = .ok false) (h6 : b.cleanup_phase = .ok ()) :
    labRun r0 b t0 t1 =
      { r0 with
        status := .completed
        start_time := some t0
        metrics := m
        end_time := some t1
        duration := some ((t1 : ℚ) - (t0 : ℚ)) } := by
  unfold labRun
  rw [h1, h2, h3, h4, h5, h6]

/-- Witness for `lab_run_save_failure_completes`. -/
theorem lab_run_save_failure_completes_witness :
    labRun (createResult cfgNoop 5) bSaveFalse 10 11 =
      { createResult cfgNoop 5 with
        status := .completed
        start_time := some 10
        metrics := [("ok", .int 1)]
        end_time := some 11
        duration := some ((11 : ℚ) - (10 : ℚ)) } :=
  lab_run_save_failure_completes (createResult cfgNoop 5) bSaveFalse
    10 11 [("ok", .int 1)] rfl rfl rfl rfl rfl rfl

/-- Claim C7 (counterexample): with the framework never started
(`is_running = false`), `run_experiment` on a registered type and a
valid configuration does not fail — it returns a task id and the task is
sitting in the queue. -/
theorem run_experiment_before_start_cex :
    fwReg.is_running = false ∧
    (runExperiment fwReg "noop" cfgNoop 1000 10).isOk = true ∧
    (runExperiment fwReg "noop" cfgNoop 1000 10).map (fun p => p.1) =
      .ok "task_1000_1" ∧
    (runExperiment fwReg "noop" cfgNoop 1000 10).map
      (fun p => p.2.task_manager.task_queue.length) = .ok 1 :=
  ⟨rfl, rfl, rfl, rfl⟩

/-- Claim C10 (counterexample): `stop ∘ start` does not restore the
observable state of a single `start`.  After `start; stop; start` the
registry and the running flag look like a fresh start, but the host
table — cleared by `ResourceManager.shutdown` and never rebuilt by
`start` — is empty, so no experiment can ever be allocated a host
again. -/
theorem stop_start_cex :
    fwA.resource_manager.server_resources =
      initServerResources [("s1", srvS1)] ∧
    fwA.resource_manager.server_resources.length = 1 ∧
    fwB.resource_manager.server_resources = [] ∧
    fwB.registry = fwA.registry ∧
    fwB.is_running = true ∧
    (allocateServer fwB.resource_manager 0 400).1 = none :=
  ⟨rfl, rfl, rfl, rfl, rfl, rfl⟩

/-- Claim C3 (counterexample): a running task with retries left whose
`(priority, creation timestamp)` pair ties the single queued entry — an
entry of a different task, hence the first (and only) parent the sift-up
compares against — makes the re-queue `put` raise a comparison error out
of `fail_task`: no boolean is returned and the retried statistic is not
bumped, while the state carried by the exception already holds the reset
task in `tasks` and the entry left dangling at the end of the heap
list. -/
theorem fail_task_tied_requeue_cex :
    tmTied.running_ids.contains "a" = true ∧
    List.lookup "a" tmTied.tasks = some tRunA ∧
    tRunA.status = .running ∧
    tRunA.retry_count < tRunA.max_retries ∧
    failTask tmTied "a" "boom" 99 =
      .error
        { tmTied with
          tasks := dictInsert tmTied.tasks "a" (retryReset tRunA)
          task_queue := [⟨-1, 50, tPendB⟩,
                         ⟨-1, 50, retryReset tRunA⟩] } :=
  ⟨rfl, rfl, rfl, by decide, rfl⟩

theorem foldlM_pqInsert_props (es : List QEntry) :
    ∀ acc q, QSorted acc →
      List.foldlM (fun q e => pqInsert q e) acc es = .ok q →
      QSorted q ∧ ∀ x ∈ q, x ∈ acc ∨ x ∈ es := by
  induction es with
  | nil =>
    intro acc q hs h
    simp only [List.foldlM_nil, pure, Except.pure, Except.ok.injEq] at h
    subst h
    exact ⟨hs, fun x hx => Or.inl hx⟩
  | cons e es ih =>
    intro acc q hs h
    rw [List.foldlM_cons] at h
    cases hr : pqInsert acc e with
    | error u =>
      rw [hr] at h
      simp [bind, Except.bind] at h
    | ok acc2 =>
      rw [hr] at h
      simp only [bind, Except.bind] at h
      obtain ⟨hq, hmem⟩ := ih acc2 q (pqInsert_sorted acc e acc2 hs hr) h
      refine ⟨hq, fun x hx => ?_⟩
      rcases hmem x hx with hx2 | hx2
      · rcases (pqInsert_mem_iff acc e acc2 hr x).mp hx2 with hx3 | heq
        · exact Or.inl hx3
        · exact Or.inr (heq ▸ List.mem_cons_self e es)
      · exact Or.inr (List.mem_cons_of_mem e hx2)

theorem drainTasks_map (q : List QEntry) :
    ∀ tm : TMState, tm.task_queue = q →
      drainTasks q.length tm = q.map QEntry.task := by
  induction q with
  | nil => intro tm h; rfl
  | cons e rest ih =>
    intro tm h
    have hg : getNextTask tm = (some e.task, { tm with task_queue := rest }) := by
      unfold getNextTask
      rw [h]
    show drainTasks (rest.length + 1) tm = e.task :: rest.map QEntry.task
    rw [drainTasks, hg]
    exact congrArg (e.task :: ·) (ih { tm with task_queue := rest } rfl)

/-- Claim C4: for a queue built from any arrival order of submissions,
repeated `get_next_task` returns the queued entries in order, and every
later task has priority no higher than every earlier one, with
nondecreasing creation timestamps inside one priority class. -/
theorem dequeue_priority_fifo (es q : List QEntry)
    (hwf : ∀ e ∈ es, e.wf) (hb : buildQueue es = .ok q) :
    drainTasks q.length { task_queue := q } = q.map QEntry.task ∧
    DequeueOrdered (drainTasks q.length { task_queue := q }) := by
  have hprops := foldlM_pqInsert_props es [] q List.Pairwise.nil
    (by simpa [buildQueue] using hb)
  have hsorted := hprops.1
  have hmemes : ∀ x ∈ q, x ∈ es :=
    fun x hx => (hprops.2 x hx).resolve_left (by simp)
  have hdrain := drainTasks_map q { task_queue := q } rfl
  refine ⟨hdrain, ?_⟩
  rw [hdrain]
  unfold DequeueOrdered
  rw [List.pairwise_map]
  refine hsorted.imp_of_mem ?_
  intro a b ha hb2 hr
  obtain ⟨ha1, ha2⟩ := hwf a (hmemes a ha)
  obtain ⟨hb1, hb2w⟩ := hwf b (hmemes b hb2)
  unfold QEntry.key at hr
  rcases hr with hlt | heq
  · rw [keyLt_iff] at hlt
    simp only at hlt
    rw [ha1, ha2, hb1, hb2w] at hlt
    constructor
    · omega
    · intro hp; omega
  · rw [Prod.ext_iff] at heq
    simp only at heq
    rw [ha1, ha2, hb1, hb2w] at heq
    constructor
    · omega
    · intro hp; omega

/-- Witness for `dequeue_priority_fifo`: the seed scenario A(0), B(5),
C(0) drains as B, A, C with the claimed ordering. -/
theorem dequeue_priority_fifo_witness :
    drainTasks qSeed.length { task_queue := qSeed } =
      qSeed.map QEntry.task ∧
    DequeueOrdered (drainTasks qSeed.length { task_queue := qSeed }) :=
  dequeue_priority_fifo esSeed qSeed (by decide) rfl

/-- Claim C3 (amended): for a task in the running map, `fail_task` with
retries left first resets the task (retry counter bumped, status
`pending`, start/end/assigned-host cleared).  When the re-queue `put`
completes, the reset task sits in the queue under its original creation
timestamp, the retried statistic is bumped and `fail_task` returns
`True`; when instead the put's first comparison hits a tied entry of a
different task — always the case when that entry is the sole queued
one — the `TypeError` propagates out of `fail_task` with no boolean
returned and the retried statistic untouched, the reset task already in
`tasks` and the new entry dangling at the end of the heap list.  With
retries exhausted `fail_task` marks the task `failed` with the message
and end time, moves it to the failed map and bumps the failed
statistic. -/
theorem fail_task_retry_or_fail (tm : TMState) (tid msg : String)
    (now : Nat) (task : Task)
    (hmem : tm.running_ids.contains tid = true)
    (hlook : List.lookup tid tm.tasks = some task)
    (hstat : task.status = .running) :
    (∀ q2, task.retry_count < task.max_retries →
      heappush tm.task_queue
        ⟨-task.priority, task.created_time, retryReset task⟩ = .ok q2 →
      failTask tm tid msg now =
        .ok (true,
          { tm with
            tasks := dictInsert tm.tasks tid (retryReset task)
            task_queue := q2
            stats_retried := tm.stats_retried + 1 }) ∧
      (⟨-task.priority, task.created_time, retryReset task⟩ : QEntry) ∈ q2) ∧
    (∀ e2, task.retry_count < task.max_retries →
      tm.task_queue = [e2] →
      e2.key = (-task.priority, task.created_time) →
      ¬ e2.task = retryReset task →
      failTask tm tid msg now =
        .error
          { tm with
            tasks := dictInsert tm.tasks tid (retryReset task)
            task_queue :=
              [e2, ⟨-task.priority, task.created_time, retryReset task⟩] }) ∧
    (task.max_retries ≤ task.retry_count →
      failTask tm tid msg now =
        .ok (true,
          { tm with
            tasks := dictInsert tm.tasks tid (markFailed task msg now)
            failed_ids := idInsert tm.failed_ids tid
            running_ids := tm.running_ids.erase tid
            stats_failed := tm.stats_failed + 1 })) := by
  refine ⟨?_, ?_, ?_⟩
  · intro q2 hlt hq
    have hq2 : heappush tm.task_queue
        ⟨-(retryReset task).priority, (retryReset task).created_time,
         retryReset task⟩ = .ok q2 := hq
    refine ⟨?_, heappush_mem _ _ q2 hq⟩
    unfold failTask
    simp only [hmem, hlook]
    rw [if_pos hlt, hq2]
    simp
  · intro e2 hlt hq hkey hne
    have herr : heappush tm.task_queue
        ⟨-(retryReset task).priority, (retryReset task).created_time,
         retryReset task⟩ =
        .error [e2, ⟨-(retryReset task).priority,
                     (retryReset task).created_time, retryReset task⟩] := by
      rw [hq]
      exact heappush_singleton_tie e2 _ hkey hne
    unfold failTask
    simp only [hmem, hlook]
    rw [if_pos hlt, herr]
    simp
    exact ⟨rfl, rfl⟩
  · intro hge
    unfold failTask
    simp only [hmem, hlook]
    rw [if_neg (not_lt.mpr hge)]
    simp

/-- Witness for `fail_task_retry_or_fail`: one retry on an empty queue,
one raising retry against a tied singleton queue, and one exhausted
failure. -/
theorem fail_task_retry_or_fail_witness :
    (failTask tmRetry "a" "boom" 99 =
      .ok (true,
        { tmRetry with
          tasks := dictInsert tmRetry.tasks "a" (retryReset tRunA)
          task_queue := [⟨-tRunA.priority, tRunA.created_time,
                          retryReset tRunA⟩]
          stats_retried := tmRetry.stats_retried + 1 }) ∧
      (⟨-tRunA.priority, tRunA.created_time, retryReset tRunA⟩ : QEntry) ∈
        [(⟨-tRunA.priority, tRunA.created_time, retryReset tRunA⟩ : QEntry)]) ∧
    failTask tmTied "a" "tied" 99 =
      .error
        { tmTied with
          tasks := dictInsert tmTied.tasks "a" (retryReset tRunA)
          task_queue := [⟨-1, 50, tPendB⟩,
                         ⟨-tRunA.priority, tRunA.created_time,
                          retryReset tRunA⟩] } ∧
    failTask tmRunC "c" "err" 99 =
      .ok (true,
        { tmRunC with
          tasks := dictInsert tmRunC.tasks "c" (markFailed tRunC "err" 99)
          failed_ids := idInsert tmRunC.failed_ids "c"
          running_ids := tmRunC.running_ids.erase "c"
          stats_failed := tmRunC.stats_failed + 1 }) :=
  ⟨(fail_task_retry_or_fail tmRetry "a" "boom" 99 tRunA rfl rfl rfl).1
      [⟨-tRunA.priority, tRunA.created_time, retryReset tRunA⟩]
      (by decide) rfl,
   (fail_task_retry_or_fail tmTied "a" "tied" 99 tRunA rfl rfl rfl).2.1
      ⟨-1, 50, tPendB⟩ (by decide) rfl rfl (by decide),
   (fail_task_retry_or_fail tmRunC "c" "err" 99 tRunC rfl rfl rfl).2.2
      (by decide)⟩

/-- Claim C6 (counterexample): the queue entries are keyed by the pair
`(-priority, creation timestamp)` with the unordered `Task` object as
the final tuple component, not by a triple with a monotonic counter;
inserting two tasks with equal priority and equal creation timestamp
does not succeed: the first `submit_task` returns `True`, the second's
push compares the appended entry against its parent — the tied first
entry — raising the comparison `TypeError` before any swap, so
`submit_task` returns `False` with the entry left dangling at the end of
the heap list. -/
theorem tied_submit_cex :
    (submitTask tmTie0 "a").1 = true ∧
    (submitTask (submitTask tmTie0 "a").2 "b").1 = false ∧
    heappush (submitTask tmTie0 "a").2.task_queue
      ⟨-tPendB.priority, tPendB.created_time, tPendB⟩ =
      .error [⟨-1, 50, tAPend⟩,
              ⟨-tPendB.priority, tPendB.created_time, tPendB⟩] ∧
    (submitTask (submitTask tmTie0 "a").2 "b").2.task_queue =
      [⟨-1, 50, tAPend⟩,
       ⟨-tPendB.priority, tPendB.created_time, tPendB⟩] :=
  ⟨rfl, rfl, rfl, rfl⟩

theorem lookup_map_update {α : Type} (l : List (String × α)) (k : String)
    (v : α) (hf : (l.find? (fun p => p.1 == k)).isSome = true) :
    List.lookup k (l.map (fun p => if p.1 == k then (k, v) else p)) =
      some v := by
  induction l with
  | nil => simp [List.find?] at hf
  | cons p l ih =>
    cases hpk : (p.1 == k) with
    | true =>
      rw [List.map_cons, if_pos hpk]
      simp [List.lookup]
    | false =>
      have hf2 : (l.find? (fun p => p.1 == k)).isSome = true := by
        rw [List.find?_cons, hpk] at hf
        exact hf
      have hkp : (k == p.1) = false := by
        simp only [beq_eq_false_iff_ne] at hpk ⊢
        exact hpk.symm
      rw [List.map_cons, if_neg (by simp [hpk])]
      simp only [List.lookup, hkp]
      exact ih hf2

theorem lookup_append_new {α : Type} (l : List (String × α)) (k : String)
    (v : α) (hf : (l.find? (fun p => p.1 == k)).isSome = false) :
    List.lookup k (l ++ [(k, v)]) = some v := by
  induction l with
  | nil => simp [List.lookup]
  | cons p l ih =>
    have hpk : (p.1 == k) = false := by
      cases h : (p.1 == k) with
      | false => rfl
      | true => rw [List.find?_cons, h] at hf; simp at hf
    have hf2 : (l.find? (fun p => p.1 == k)).isSome = false := by
      rw [List.find?_cons, hpk] at hf
      exact hf
    have hkp : (k == p.1) = false := by
      simp only [beq_eq_false_iff_ne] at hpk ⊢
      exact hpk.symm
    rw [List.cons_append]
    simp only [List.lookup, hkp]
    exact ih hf2

theorem lookup_dictInsert {α : Type} (l : List (String × α)) (k : String)
    (v : α) : List.lookup k (dictInsert l k v) = some v := by
  unfold dictInsert
  cases hf : (l.find? (fun p => p.1 == k)).isSome with
  | true => rw [if_pos rfl]; exact lookup_map_update l k v hf
  | false => rw [if_neg (by simp)]; exact lookup_append_new l k v hf

/-- Claim C6 (amended): the queue is keyed by the pair
`(-priority, creation-timestamp-s)` with the task object itself as the
final tuple component; there is no monotonic counter, and since `Task`
objects are unordered, inserting a task whose key ties that of a queued
different task is not guaranteed to succeed: when the tied entry is the
one the appended item is sifted against — always the case when it is the
sole queued entry — the push raises a comparison `TypeError` before any
swap, and `submit_task` catches it and returns `False` with the new
entry left dangling at the end of the heap list. -/
theorem tied_key_insert_fails (tm : TMState) (tid : String) (task : Task)
    (e2 : QEntry)
    (hq : tm.task_queue = [e2])
    (hlook : List.lookup tid tm.tasks = some task)
    (hdeps : checkDependencies tm task = true)
    (hcap : tm.task_queue.length < tm.max_queue_size)
    (hkey : e2.key = (-task.priority, task.created_time))
    (hne : ¬ e2.task = task) :
    heappush tm.task_queue ⟨-task.priority, task.created_time, task⟩ =
      .error [e2, ⟨-task.priority, task.created_time, task⟩] ∧
    submitTask tm tid =
      (false,
       { tm with
         task_queue := [e2, ⟨-task.priority, task.created_time, task⟩] }) := by
  have herr : heappush tm.task_queue
      ⟨-task.priority, task.created_time, task⟩ =
      .error [e2, ⟨-task.priority, task.created_time, task⟩] := by
    rw [hq]
    exact heappush_singleton_tie e2 _ hkey hne
  refine ⟨herr, ?_⟩
  simp [submitTask, hlook, hdeps, Nat.not_le.mpr hcap, herr]

/-- Witness for `tied_key_insert_fails`: submitting `b` after `a` in the
tied fixture. -/
theorem tied_key_insert_fails_witness :
    heappush tmSubA.task_queue
      ⟨-tPendB.priority, tPendB.created_time, tPendB⟩ =
      .error [⟨-1, 50, tAPend⟩,
              ⟨-tPendB.priority, tPendB.created_time, tPendB⟩] ∧
    submitTask tmSubA "b" =
      (false,
       { tmSubA with
         task_queue := [⟨-1, 50, tAPend⟩,
                        ⟨-tPendB.priority, tPendB.created_time,
                         tPendB⟩] }) :=
  tied_key_insert_fails tmSubA "b" tPendB ⟨-1, 50, tAPend⟩
    (by decide) (by decide) (by decide) (by decide) (by decide)
    (by decide)

theorem generateTaskId_snd (tm : TMState) (nowMs : Nat) :
    (generateTaskId tm nowMs).2 =
      { tm with task_id_counter := tm.task_id_counter + 1 } :=
  rfl

theorem createTask_eq (tm : TMState) (etype : String)
    (config : ExperimentConfig) (priority max_retries : Int)
    (deps : List String) (nowMs created : Nat) :
    createTask tm etype config priority max_retries deps nowMs created =
      ((generateTaskId tm nowMs).1,
       { (generateTaskId tm nowMs).2 with
         tasks := dictInsert (generateTaskId tm nowMs).2.tasks
           (generateTaskId tm nowMs).1
           { task_id := (generateTaskId tm nowMs).1
             experiment_type := etype
             config := config
             status := .pending
             created_time := created
             max_retries := max_retries
             priority := priority
             dependencies := deps }
         stats_created := (generateTaskId tm nowMs).2.stats_created + 1 }) :=
  rfl

/-- Claim C7 (amended): `run_experiment` performs no check of the
running flag.  Called before `start` (running flag down) on a registered
type and a valid configuration, with queue capacity left and no key tie,
it creates the task, queues it and returns its id; the task then simply
waits for workers. -/
theorem run_experiment_ignores_running_flag (fw : FWState)
    (etype : String) (cfg : ExperimentConfig) (nowMs created : Nat)
    (hrun : fw.is_running = false)
    (hreg : validateExperimentType fw.registry etype = true)
    (hcfg : validateExperimentConfig cfg = true)
    (hcap : fw.task_manager.task_queue.length <
      fw.task_manager.max_queue_size)
    (htie : ∀ e ∈ fw.task_manager.task_queue,
      e.key ≠ (-cfg.priority, created)) :
    ∃ fw2, runExperiment fw etype cfg nowMs created =
      .ok ((generateTaskId fw.task_manager nowMs).1, fw2) ∧
      ∃ e ∈ fw2.task_manager.task_queue,
        e.task.task_id = (generateTaskId fw.task_manager nowMs).1 ∧
        e.task.status = .pending := by
  obtain ⟨q2, hq2, hq2mem⟩ := heappush_ok_of_no_tie
    fw.task_manager.task_queue
    ⟨-cfg.priority, created,
     { task_id := (generateTaskId fw.task_manager nowMs).1
       experiment_type := etype
       config := cfg
       status := .pending
       created_time := created
       max_retries := cfg.retry_count
       priority := cfg.priority
       dependencies := [] }⟩
    (fun x hx => htie x hx)
  refine ⟨{ fw with task_manager :=
    { (createTask fw.task_manager etype cfg cfg.priority cfg.retry_count
        [] nowMs created).2 with task_queue := q2 } }, ?_, ?_⟩
  · unfold runExperiment
    rw [if_neg (by simp [hreg]), if_neg (by simp [hcfg])]
    rw [createTask_eq]
    show (match submitTask _ (generateTaskId fw.task_manager nowMs).1 with
          | (ok, tm2) =>
            if ¬ ok then Except.error "无法提交任务到队列"
            else .ok ((generateTaskId fw.task_manager nowMs).1,
                      { fw with task_manager := tm2 })) = _
    have hsub : submitTask
        { (generateTaskId fw.task_manager nowMs).2 with
          tasks := dictInsert (generateTaskId fw.task_manager nowMs).2.tasks
            (generateTaskId fw.task_manager nowMs).1
            { task_id := (generateTaskId fw.task_manager nowMs).1
              experiment_type := etype
              config := cfg
              status := .pending
              created_time := created
              max_retries := cfg.retry_count
              priority := cfg.priority
              dependencies := [] }
          stats_created :=
            (generateTaskId fw.task_manager nowMs).2.stats_created + 1 }
        (generateTaskId fw.task_manager nowMs).1 =
        (true,
         { (createTask fw.task_manager etype cfg cfg.priority
             cfg.retry_count [] nowMs created).2 with task_queue := q2 }) := by
      simp [submitTask, lookup_dictInsert, checkDependencies,
        generateTaskId_snd, createTask_eq, Nat.not_le.mpr hcap, hq2]
    rw [hsub]
    rfl
  · exact ⟨⟨-cfg.priority, created,
      { task_id := (generateTaskId fw.task_manager nowMs).1
        experiment_type := etype
        config := cfg
        status := .pending
        created_time := created
        max_retries := cfg.retry_count
        priority := cfg.priority
        dependencies := [] }⟩,
      hq2mem, rfl, rfl⟩

/-- Witness for `run_experiment_ignores_running_flag` on the registered
but never started framework. -/
theorem run_experiment_ignores_running_flag_witness :
    ∃ fw2, runExperiment fwReg "noop" cfgNoop 1000 10 =
      .ok ((generateTaskId fwReg.task_manager 1000).1, fw2) ∧
      ∃ e ∈ fw2.task_manager.task_queue,
        e.task.task_id = (generateTaskId fwReg.task_manager 1000).1 ∧
        e.task.status = .pending :=
  run_experiment_ignores_running_flag fwReg "noop" cfgNoop 1000 10
    rfl rfl rfl (by decide) (by decide)

theorem loadEntry_serializeResult (r : ExperimentResult) :
    loadEntry (serializeResult r) = some (loadedView r) := by
  cases hs : r.start_time <;> cases he : r.end_time <;>
    cases hd : r.duration <;> cases hm : r.error_message <;>
      simp [loadEntry, serializeResult, loadedView, jvalToPy,
        List.lookup, hs, he, hd, hm]

/-- Claim C8: storing a result and loading the persisted metadata does
not reconstruct an equal entry.  The loaded object keeps the raw JSON
values: in particular its `status` field holds the integer enum value
written by the serializer, which a plain-`Enum` member never equals, so
`load(store(r)) ≠ r` for every result — not merely up to timestamp
normalization. -/
theorem load_store_not_roundtrip (r : ExperimentResult) (now : Nat) :
    loadResultIndex (saveResultIndex [(r.experiment_id, r)] now) =
      [(r.experiment_id, loadedView r)] ∧
    (loadedView r).status = .int r.status.value ∧
    loadedView r ≠ toPyObj r := by
  refine ⟨?_, rfl, ?_⟩
  · simp [loadResultIndex, saveResultIndex, loadEntry_serializeResult,
      loadedView, dictInsert]
  · intro h
    have h2 := congrArg ResultObj.status h
    simp [loadedView, toPyObj] at h2

theorem markStale_fst (now : Nat) (p : String × ServerInfo) :
    (markStale now p).1 = p.1 := by
  unfold markStale
  dsimp only
  split
  · rfl
  · split
    · rfl
    · split
      · split <;> rfl
      · rfl

theorem markStale_counts (now : Nat) (p : String × ServerInfo) :
    (markStale now p).2.current_tasks = p.2.current_tasks ∧
    (markStale now p).2.max_tasks = p.2.max_tasks := by
  unfold markStale
  dsimp only
  split
  · exact ⟨rfl, rfl⟩
  · split
    · exact ⟨rfl, rfl⟩
    · split
      · split <;> exact ⟨rfl, rfl⟩
      · exact ⟨rfl, rfl⟩

theorem markStale_of_isAvailable (now : Nat) (p : String × ServerInfo)
    (h : isAvailable now p = true) : markStale now p = p := by
  unfold isAvailable at h
  unfold markStale
  dsimp only at h ⊢
  rw [Bool.and_eq_true, Bool.and_eq_true] at h
  obtain ⟨⟨hA, hB⟩, hC⟩ := h
  have hA2 : (p.2.status == ServerStatus.offline ||
      p.2.status == ServerStatus.error) = false := by
    revert hA
    cases p.2.status == ServerStatus.offline ||
      p.2.status == ServerStatus.error <;> simp
  rw [hA2, if_neg (by simp)]
  rw [decide_eq_true_eq] at hB
  rw [if_neg (by omega)]
  cases hhb : p.2.last_heartbeat with
  | none => rfl
  | some hb =>
    rw [hhb] at hC
    rw [decide_eq_true_eq] at hC
    dsimp only
    rw [if_neg (by omega)]

theorem lookup_mem {α : Type} (l : List (String × α)) (k : String)
    (v : α) (h : List.lookup k l = some v) : (k, v) ∈ l := by
  induction l with
  | nil => simp [List.lookup] at h
  | cons p l ih =>
    rw [List.lookup] at h
    cases hk : (k == p.1) with
    | true =>
      rw [hk] at h
      simp only [Option.some.injEq] at h
      have hk2 : k = p.1 := eq_of_beq hk
      have hkv : (k, v) = p := by rw [hk2, ← h]
      rw [hkv]
      exact List.mem_cons_self p l
    | false =>
      rw [hk] at h
      exact List.mem_cons_of_mem p (ih h)

theorem nodup_key_unique {α : Type} (l : List (String × α)) (k : String)
    (v1 v2 : α) (hnd : (l.map Prod.fst).Nodup)
    (h1 : (k, v1) ∈ l) (h2 : (k, v2) ∈ l) : v1 = v2 := by
  induction l with
  | nil => cases h1
  | cons p l ih =>
    rw [List.map_cons, List.nodup_cons] at hnd
    rcases List.mem_cons.mp h1 with e1 | m1 <;>
      rcases List.mem_cons.mp h2 with e2 | m2
    · rw [← e1] at e2
      injection e2 with h1 h2
      exact h2.symm
    · exfalso
      apply hnd.1
      have : p.1 = k := by rw [← e1]
      rw [this]
      exact List.mem_map.mpr ⟨(k, v2), m2, rfl⟩
    · exfalso
      apply hnd.1
      have : p.1 = k := by rw [← e2]
      rw [this]
      exact List.mem_map.mpr ⟨(k, v1), m1, rfl⟩
    · exact ih hnd.2 m1 m2

theorem mem_dictInsert {α : Type} (l : List (String × α)) (k : String)
    (v : α) (x : String × α) (hx : x ∈ dictInsert l k v) :
    x ∈ l ∨ x = (k, v) := by
  unfold dictInsert at hx
  split at hx
  · obtain ⟨p, hp, he⟩ := List.mem_map.mp hx
    by_cases hpk : (p.1 == k) = true
    · rw [if_pos hpk] at he
      exact Or.inr he.symm
    · rw [if_neg hpk] at he
      exact Or.inl (he ▸ hp)
  · rcases List.mem_append.mp hx with hl | hr
    · exact Or.inl hl
    · simp only [List.mem_singleton] at hr
      exact Or.inr hr

theorem dictInsert_keys_nodup {α : Type} (l : List (String × α))
    (k : String) (v : α) (hnd : (l.map Prod.fst).Nodup) :
    ((dictInsert l k v).map Prod.fst).Nodup := by
  unfold dictInsert
  split
  · rw [List.map_map]
    have he : ∀ p ∈ l,
        (Prod.fst ∘ fun p => if p.1 == k then (k, v) else p) p = p.1 := by
      intro p _
      simp only [Function.comp]
      split
      · rename_i hpk
        exact (eq_of_beq hpk).symm
      · rfl
    rw [List.map_congr_left he]
    exact hnd
  · rename_i hf
    have hk : k ∉ l.map Prod.fst := by
      intro hkmem
      obtain ⟨p, hp, hpk⟩ := List.mem_map.mp hkmem
      have hnone : l.find? (fun p => p.1 == k) = none := by
        cases hcase : l.find? (fun p => p.1 == k) with
        | none => rfl
        | some q => exact absurd (by rw [hcase]; rfl) hf
      have := List.find?_eq_none.mp hnone p hp
      rw [hpk] at this
      exact this (by simp)
    rw [List.map_append]
    simp only [List.map_cons, List.map_nil]
    exact List.Nodup.append hnd (List.nodup_singleton k)
      (by simpa [List.disjoint_singleton] using hk)

theorem foldl_choice_mem {α : Type} (f : α → α → α)
    (hf : ∀ a b, f a b = a ∨ f a b = b) :
    ∀ (l : List α) (a : α), l.foldl f a ∈ a :: l := by
  intro l
  induction l with
  | nil => intro a; exact List.mem_singleton.mpr rfl
  | cons b bs ih =>
    intro a
    rw [List.foldl_cons]
    rcases List.mem_cons.mp (ih (f a b)) with he | hm
    · rw [he]
      rcases hf a b with h1 | h1 <;> rw [h1]
      · exact List.mem_cons_self a (b :: bs)
      · exact List.mem_cons_of_mem a (List.mem_cons_self b bs)
    · exact List.mem_cons_of_mem a (List.mem_cons_of_mem b hm)

theorem minByCount_mem (servers : List (String × ServerInfo))
    (l : List String) (n : String) (h : minByCount servers l = some n) :
    n ∈ l := by
  cases l with
  | nil => cases h
  | cons a as =>
    simp only [minByCount, Option.some.injEq] at h
    rw [← h]
    refine foldl_choice_mem _ (fun x y => ?_) as a
    dsimp only
    split
    · exact Or.inr rfl
    · exact Or.inl rfl

theorem head?_mem {α : Type} (l : List α) (a : α) (h : l.head? = some a) :
    a ∈ l := by
  cases l with
  | nil => cases h
  | cons x xs =>
    simp only [List.head?, Option.some.injEq] at h
    rw [← h]
    exact List.mem_cons_self x xs

theorem selected_mem_avail (strategy : String) (rmL : RMState)
    (avail : List String) (p : Int) (name : String)
    (h : (if strategy == "round_robin" then
            roundRobinAllocation avail
          else if strategy == "least_loaded" then
            leastLoadedAllocation rmL avail
          else if strategy == "priority_based" then
            priorityBasedAllocation rmL avail p
          else roundRobinAllocation avail) = some name) :
    name ∈ avail := by
  split at h
  · exact head?_mem avail name h
  · split at h
    · exact minByCount_mem rmL.server_resources avail name h
    · split at h
      · unfold priorityBasedAllocation at h
        split at h
        · exact minByCount_mem rmL.server_resources avail name h
        · exact head?_mem avail name h
      · exact head?_mem avail name h

theorem avail_source (rm : RMState) (now : Nat) (name : String)
    (h : name ∈ (rm.server_resources.filter (isAvailable now)).map
      Prod.fst) :
    ∃ s, (name, s) ∈ rm.server_resources ∧
      isAvailable now (name, s) = true := by
  obtain ⟨q, hq, hfst⟩ := List.mem_map.mp h
  rw [List.mem_filter] at hq
  have hq2 : (name, q.2) = q := by rw [← hfst]
  exact ⟨q.2, hq2 ▸ hq.1, hq2 ▸ hq.2⟩

theorem isAvailable_count (now : Nat) (q : String × ServerInfo)
    (h : isAvailable now q = true) :
    q.2.current_tasks < q.2.max_tasks := by
  unfold isAvailable at h
  rw [Bool.and_eq_true, Bool.and_eq_true] at h
  exact decide_eq_true_eq.mp h.1.2

theorem alloc_inv (rm : RMState) (p : Int) (now : Nat) (h : RMInv rm) :
    RMInv (allocateServer rm p now).2 := by
  obtain ⟨hnd, hb⟩ := h
  have hnd1 : ((rm.server_resources.map (markStale now)).map
      Prod.fst).Nodup := by
    rw [List.map_map]
    have he : (Prod.fst ∘ markStale now) =
        (Prod.fst : String × ServerInfo → String) :=
      funext (fun q => markStale_fst now q)
    rw [he]
    exact hnd
  have hb1 : ∀ x ∈ rm.server_resources.map (markStale now),
      0 ≤ x.2.current_tasks ∧ x.2.current_tasks ≤ x.2.max_tasks := by
    intro x hx
    obtain ⟨q, hq, hqe⟩ := List.mem_map.mp hx
    have hbq := hb q hq
    rw [← hqe]
    rw [(markStale_counts now q).1, (markStale_counts now q).2]
    exact hbq
  unfold allocateServer getAvailableServers
  dsimp only
  split
  · exact ⟨hnd1, hb1⟩
  · split
    · exact ⟨hnd1, hb1⟩
    · rename_i name heqSel
      split
      · exact ⟨hnd1, hb1⟩
      · rename_i s heqLk
        have hmemAv : name ∈ (rm.server_resources.filter
            (isAvailable now)).map Prod.fst :=
          selected_mem_avail rm.allocation_strategy _ _ p name heqSel
        obtain ⟨s0, hmem0, hav0⟩ := avail_source rm now name hmemAv
        have hstale : markStale now (name, s0) = (name, s0) :=
          markStale_of_isAvailable now (name, s0) hav0
        have hmem1 : (name, s0) ∈
            rm.server_resources.map (markStale now) := by
          rw [← hstale]
          exact List.mem_map_of_mem (markStale now) hmem0
        have hmemS : (name, s) ∈
            rm.server_resources.map (markStale now) :=
          lookup_mem _ name s heqLk
        have hss0 : s = s0 :=
          nodup_key_unique _ name s s0 hnd1 hmemS hmem1
        have hcnt : s0.current_tasks < s0.max_tasks :=
          isAvailable_count now (name, s0) hav0
        have hnn : (0 : Int) ≤ s0.current_tasks := (hb (name, s0) hmem0).1
        refine ⟨dictInsert_keys_nodup _ _ _ hnd1, ?_⟩
        intro x hx
        rcases mem_dictInsert _ _ _ x hx with hxm | hxe
        · exact hb1 x hxm
        · rw [hxe]
          dsimp only
          split
          · dsimp only
            rw [hss0]
            omega
          · dsimp only
            rw [hss0]
            omega

theorem release_inv (rm : RMState) (name : String) (h : RMInv rm) :
    RMInv (releaseServer rm name) := by
  obtain ⟨hnd, hb⟩ := h
  unfold releaseServer
  cases hlk : List.lookup name rm.server_resources with
  | none => exact ⟨hnd, hb⟩
  | some s =>
    dsimp only
    have hbs : 0 ≤ s.current_tasks ∧ s.current_tasks ≤ s.max_tasks :=
      hb (name, s) (lookup_mem _ name s hlk)
    refine ⟨dictInsert_keys_nodup _ _ _ hnd, ?_⟩
    intro x hx
    rcases mem_dictInsert _ _ _ x hx with hxm | hxe
    · exact hb x hxm
    · rw [hxe]
      dsimp only
      split
      · dsimp only
        constructor
        · exact le_max_left 0 _
        · exact max_le (le_trans hbs.1 hbs.2) (by omega)
      · split
        · dsimp only
          constructor
          · exact le_max_left 0 _
          · exact max_le (le_trans hbs.1 hbs.2) (by omega)
        · dsimp only
          constructor
          · exact le_max_left 0 _
          · exact max_le (le_trans hbs.1 hbs.2) (by omega)

/-- Claim C5: every interleaving of `allocate_server` and
`release_server` calls preserves the per-host invariant
`0 ≤ current_task_count ≤ max_concurrent_tasks` (on host tables with
distinct names, as Python dicts have): allocation increments a count
only when it is strictly below the maximum, and release decrements with
a floor at zero. -/
theorem rm_count_bounds_invariant (rm : RMState) (ops : List RMOp)
    (h : RMInv rm) : RMInv (applyRMOps rm ops) := by
  induction ops generalizing rm with
  | nil => exact h
  | cons op ops ih =>
    have h2 : RMInv (applyRMOp rm op) := by
      cases op with
      | alloc p now => exact alloc_inv rm p now h
      | release name => exact release_inv rm name h
    exact ih (applyRMOp rm op) h2

/-- Witness for `rm_count_bounds_invariant`: one two-slot host under
three allocations (exhausting it) and one release. -/
theorem rm_count_bounds_invariant_witness :
    RMInv rmW ∧ RMInv (applyRMOps rmW opsW) :=
  ⟨by decide, rm_count_bounds_invariant rmW opsW (by decide)⟩

/-- Claim C10 (amended): after `start; stop; start` the registry and the
running flag are as after a single `start`, but the host inventory is
empty — `stop` clears it through `ResourceManager.shutdown` and `start`
never rebuilds it — so host allocation always returns absent and no
experiment can execute; whenever at least one host is configured, the
composite is therefore observably different from a single `start`. -/
theorem stop_start_loses_hosts (fw : FWState) (n1 n2 n3 : Nat)
    (hrun : fw.is_running = false)
    (hw : fw.worker_threads_active = false) :
    (fwStart (fwStop (fwStart fw n1) n2) n3).registry =
      (fwStart fw n1).registry ∧
    (fwStart fw n1).is_running = true ∧
    (fwStart (fwStop (fwStart fw n1) n2) n3).is_running = true ∧
    (fwStart fw n1).resource_manager.server_resources =
      fw.resource_manager.server_resources ∧
    (fwStart (fwStop (fwStart fw n1) n2)
      n3).resource_manager.server_resources = [] ∧
    ∀ (p : Int) (now : Nat),
      (allocateServer
        (fwStart (fwStop (fwStart fw n1) n2) n3).resource_manager
        p now).1 = none := by
  have e1 : fwStart fw n1 =
      { fw with
        worker_threads_active := true
        worker_threads := fw.worker_threads +
          min fw.framework_config.max_worker_threads
            (min (fw.servers_config.length *
                  fw.framework_config.max_workers_per_server)
                 fw.framework_config.max_total_workers)
        is_running := true
        fw_start_time := some n1 } := by
    unfold fwStart
    rw [if_neg (by simp [hrun])]
    dsimp only
    rw [if_neg (by simp [hw])]
  have e2 : fwStop (fwStart fw n1) n2 =
      { fw with
        worker_threads_active := false
        worker_threads := 0
        task_manager := tmShutdown fw.task_manager
        resource_manager := rmShutdown fw.resource_manager
        result_manager := resShutdown fw.result_manager n2
        is_running := false
        fw_start_time := some n1 } := by
    rw [e1]
    unfold fwStop
    rw [if_neg (by simp)]
    dsimp only
    rw [if_neg (by simp)]
  have e3 : fwStart (fwStop (fwStart fw n1) n2) n3 =
      { fw with
        worker_threads_active := true
        worker_threads := 0 +
          min fw.framework_config.max_worker_threads
            (min (fw.servers_config.length *
                  fw.framework_config.max_workers_per_server)
                 fw.framework_config.max_total_workers)
        task_manager := tmShutdown fw.task_manager
        resource_manager := rmShutdown fw.resource_manager
        result_manager := resShutdown fw.result_manager n2
        is_running := true
        fw_start_time := some n3 } := by
    rw [e2]
    unfold fwStart
    rw [if_neg (by simp)]
    dsimp only
    rw [if_neg (by simp)]
  refine ⟨?_, ?_, ?_, ?_, ?_, ?_⟩
  · rw [e3, e1]
  · rw [e1]
  · rw [e3]
  · rw [e1]
  · rw [e3]
    rfl
  · intro p now
    rw [e3]
    show (allocateServer (rmShutdown fw.resource_manager) p now).1 = none
    simp [allocateServer, getAvailableServers, rmShutdown]

/-- Witness for `stop_start_loses_hosts` on the one-host framework. -/
theorem stop_start_loses_hosts_witness :
    (fwStart (fwStop (fwStart fwReg 100) 200) 300).registry =
      (fwStart fwReg 100).registry ∧
    (fwStart fwReg 100).is_running = true ∧
    (fwStart (fwStop (fwStart fwReg 100) 200) 300).is_running = true ∧
    (fwStart fwReg 100).resource_manager.server_resources =
      fwReg.resource_manager.server_resources ∧
    (fwStart (fwStop (fwStart fwReg 100) 200)
      300).resource_manager.server_resources = [] ∧
    ∀ (p : Int) (now : Nat),
      (allocateServer
        (fwStart (fwStop (fwStart fwReg 100) 200) 300).resource_manager
        p now).1 = none :=
  stop_start_loses_hosts fwReg 100 200 300 rfl rfl

end LabGrid
